import Mathlib

/-!
# Probe target listing for gateway pods

A shallow embedding of `pkg/reconciler/ingress/lister.go`
(`ListProbeTargets`, `getRuleProbes`, `domainsToURL`) together with the
properties of the probe target resolution that the specification states.

Conventions of the embedding:

* Go slices are `List`s, `sets.String` is `Finset String`, a nilable
  `*string` is `Option String`.
* A Go call either returns its results, returns a non-nil `error`, or
  aborts with a run-time panic (here: `sub.Ports[0]` on an empty slice).
  The last two are the two constructors of `Failure`, and a call is an
  `Except Failure _`.
* `foundTargets` is a Go `int`. Every unit counted is a distinct address
  string held in memory by the endpoint snapshot, so the counter stays far
  below the word size and is modelled by `Nat` without wrap-around.
* The `for ... range` loops are structural recursions over the slice that
  thread the variables the loop body assigns to.
-/

set_option autoImplicit false

namespace Lister

/-! ## Data model -/

/-- Modelled from the spec: the declaration of `v1alpha1.IngressVisibility`
is not part of the source tree. The spec gives the visibility class as one
of external or cluster-local. -/
inductive IngressVisibility where
  | ExternalIP
  | ClusterLocal
  deriving DecidableEq, Repr

/-- Modelled from the spec: the declaration of `v1alpha1.HTTPOption` is not
part of the source tree. The spec gives the HTTP option as one of
redirected or enabled. -/
inductive HTTPOption where
  | Enabled
  | Redirected
  deriving DecidableEq, Repr

/-- The fields of `v1alpha1.IngressRule` that the lister reads. -/
structure IngressRule where
  Hosts : List String
  Visibility : IngressVisibility
  deriving DecidableEq, Repr

/-- The fields of `v1alpha1.IngressSpec` that the lister reads. -/
structure IngressSpec where
  Rules : List IngressRule
  HTTPOption : HTTPOption
  deriving DecidableEq, Repr

/-- The Go type `types.NamespacedName`: the identity of the backing service. -/
structure NamespacedName where
  Namespace : String
  Name : String
  deriving DecidableEq, Repr

/-- The Go type `corev1.EndpointPort`: `Port` is an `int32`, widened to
`int` before use, `AppProtocol` is a nilable string. -/
structure EndpointPort where
  Name : String
  Port : Int
  AppProtocol : Option String
  deriving DecidableEq, Repr

/-- The Go type `corev1.EndpointAddress`, reduced to the field that is read. -/
structure EndpointAddress where
  IP : String
  deriving DecidableEq, Repr

/-- The Go type `corev1.EndpointSubset`. -/
structure EndpointSubset where
  Addresses : List EndpointAddress
  Ports : List EndpointPort
  deriving DecidableEq, Repr

/-- The Go type `corev1.Endpoints`, reduced to its subsets. -/
structure Endpoints where
  Subsets : List EndpointSubset
  deriving DecidableEq, Repr

/-- The Go type `url.Userinfo`. -/
structure Userinfo where
  username : String
  password : String
  passwordSet : Bool
  deriving DecidableEq, Repr

/-- The Go type `url.URL` with all of its components; a component that a
composite literal does not mention holds its zero value. -/
structure URL where
  Scheme : String := ""
  Opaque : String := ""
  User : Option Userinfo := none
  Host : String := ""
  Path : String := ""
  RawPath : String := ""
  OmitHost : Bool := false
  ForceQuery : Bool := false
  RawQuery : String := ""
  Fragment : String := ""
  RawFragment : String := ""
  deriving DecidableEq, Repr

/-- The Go type `status.ProbeTarget`, with the fields the lister fills. -/
structure ProbeTarget where
  PodIPs : Finset String
  PodPort : String
  URLs : List URL

instance : DecidableEq ProbeTarget := fun a b =>
  decidable_of_iff (a.PodIPs = b.PodIPs ∧ a.PodPort = b.PodPort ∧ a.URLs = b.URLs)
    (by cases a; cases b; simp)

/-- A Go `error` value: one coming from the endpoints lister, one built by
`fmt.Errorf` from a format without verbs, or one built by `fmt.Errorf`
from a format whose `%w` verb wraps the error `err`. -/
inductive GoError where
  | lister (msg : String)
  | errorf (format : String)
  | errorfW (format : String) (err : GoError)
  deriving DecidableEq, Repr

/-- A run-time panic of the Go program. -/
inductive Panic where
  | indexOutOfRange (index : Nat) (length : Nat)
  deriving DecidableEq, Repr

/-- The two ways in which a call does not deliver its results. -/
inductive Failure where
  | error (err : GoError)
  | panic (p : Panic)
  deriving DecidableEq, Repr

instance {ε α : Type} [DecidableEq ε] [DecidableEq α] : DecidableEq (Except ε α)
  | .ok a, .ok b => decidable_of_iff (a = b) (by simp)
  | .error a, .error b => decidable_of_iff (a = b) (by simp)
  | .ok _, .error _ => isFalse (by simp)
  | .error _, .ok _ => isFalse (by simp)

/-! ## Library functions used by the lister -/

/-- The Go function `sets.NewString`. -/
def NewString (items : List String) : Finset String := items.toFinset

/-- The Go function `strconv.Itoa`: base 10, with a leading minus sign for
a negative number. -/
def Itoa (i : Int) : String :=
  if i < 0 then "-" ++ Nat.repr i.natAbs else Nat.repr i.natAbs

/-- The Go function `errors.Unwrap`: the error wrapped through `%w`, if any. -/
def GoError.Unwrap : GoError → Option GoError
  | .lister _ => none
  | .errorf _ => none
  | .errorfW _ err => some err

/-- The width in bits of the Go type `int` on a 64-bit platform. -/
def intSize : Nat := 64

/-- The value of a decimal digit; `none` for every other character. -/
def digitValue (c : Char) : Option Nat :=
  if '0' ≤ c ∧ c ≤ '9' then some (c.toNat - '0'.toNat) else none

/-- The digit loop of `strconv.Atoi`: the base 10 value of the digits read
so far, failing at the first character that is not a digit. -/
def parseDigits : List Char → Nat → Option Nat
  | [], n => some n
  | c :: cs, n =>
    match digitValue c with
    | none => none
    | some d => parseDigits cs (n * 10 + d)

/-- The Go function `strconv.Atoi`: an optional sign followed by at least
one decimal digit, with a value that fits the type `int`; `none` stands for
the returned error. -/
def Atoi (s : String) : Option Int :=
  match s.data with
  | [] => none
  | c :: cs =>
    if c = '-' then
      if cs = [] then none
      else
        match parseDigits cs 0 with
        | none => none
        | some n => if n ≤ 2 ^ (intSize - 1) then some (-(n : Int)) else none
    else if c = '+' then
      if cs = [] then none
      else
        match parseDigits cs 0 with
        | none => none
        | some n => if n < 2 ^ (intSize - 1) then some (n : Int) else none
    else
      match parseDigits (c :: cs) 0 with
      | none => none
      | some n => if n < 2 ^ (intSize - 1) then some (n : Int) else none

/-! ## The lister -/

/-- The external collaborators of the lister, taken as parameters because
the `config` package and the lister interface lie outside the source file:
`gatewayService v` is `gatewayConfig.Gateways[v].Service` of the
configuration carried by the context, and `endpointsLister service` is
`l.endpointsLister.Endpoints(service.Namespace).Get(service.Name)`. -/
structure gatewayPodTargetLister where
  gatewayService : IngressVisibility → NamespacedName
  endpointsLister : NamespacedName → Except GoError Endpoints

/-- Body of `domainsToURL`, lines 108-115: the loop over `domains`
appending to `urls`. -/
def domainsToURLLoop (scheme : String) : List String → List URL → List URL
  | [], urls => urls
  | domain :: rest, urls =>
    let url : URL := { Scheme := scheme, Host := domain, Path := "/" }
    domainsToURLLoop scheme rest (urls ++ [url])

/-- The Go function `domainsToURL`, lines 106-117. -/
def domainsToURL (domains : List String) (scheme : String) : List URL :=
  domainsToURLLoop scheme domains []

/-- The value of `scheme` after lines 70-76. -/
def scheme (rule : IngressRule) (sslOpt : HTTPOption) : String :=
  if rule.Visibility = IngressVisibility.ExternalIP ∧ sslOpt = HTTPOption.Redirected then
    "https"
  else
    "http"

/-- The value of `matchSchemes` after lines 70-76. -/
def matchSchemes (rule : IngressRule) (sslOpt : HTTPOption) : Finset String :=
  if rule.Visibility = IngressVisibility.ExternalIP ∧ sslOpt = HTTPOption.Redirected then
    NewString ["https"]
  else
    NewString ["http", "http2"]

/-- The loop over `sub.Ports`, lines 80-89, threading `portNumber`: a name
match assigns and breaks, an application protocol match assigns and goes on. -/
def portLoop (matchSchemes : Finset String) : List EndpointPort → Int → Int
  | [], portNumber => portNumber
  | port :: rest, portNumber =>
    if port.Name ∈ matchSchemes then
      port.Port
    else if port.AppProtocol.isSome ∧ port.AppProtocol.getD "" ∈ matchSchemes then
      portLoop matchSchemes rest port.Port
    else
      portLoop matchSchemes rest portNumber

/-- The loop over `sub.Addresses`, lines 92-94, inserting into `PodIPs`. -/
def addressLoop : List EndpointAddress → Finset String → Finset String
  | [], podIPs => podIPs
  | address :: rest, podIPs => addressLoop rest (insert address.IP podIPs)

/-- One iteration of the loop over `eps.Subsets`, lines 70-98, for the
subset `sub`: the probe target it appends, or the panic of `sub.Ports[0]`. -/
def subsetProbe (rule : IngressRule) (sslOpt : HTTPOption) (sub : EndpointSubset) :
    Except Failure ProbeTarget :=
  match sub.Ports with
  | [] => .error (.panic (.indexOutOfRange 0 0))
  | first :: _ =>
    let portNumber := portLoop (matchSchemes rule sslOpt) sub.Ports first.Port
    .ok { PodIPs := addressLoop sub.Addresses (NewString [])
          PodPort := Itoa portNumber
          URLs := domainsToURL rule.Hosts (scheme rule sslOpt) }

/-- The loop over `eps.Subsets`, lines 69-99, threading `targets` and
`foundTargets`. -/
def subsetsLoop (rule : IngressRule) (sslOpt : HTTPOption) :
    List EndpointSubset → List ProbeTarget → Nat → Except Failure (List ProbeTarget × Nat)
  | [], targets, foundTargets => .ok (targets, foundTargets)
  | sub :: rest, targets, foundTargets =>
    match subsetProbe rule sslOpt sub with
    | .error f => .error f
    | .ok pt => subsetsLoop rule sslOpt rest (targets ++ [pt]) (foundTargets + pt.PodIPs.card)

/-- The Go method `getRuleProbes`, lines 58-104. -/
def getRuleProbes (l : gatewayPodTargetLister) (rule : IngressRule) (sslOpt : HTTPOption) :
    Except Failure (List ProbeTarget) :=
  let service := l.gatewayService rule.Visibility
  match l.endpointsLister service with
  | .error err => .error (.error (.errorfW "failed to get endpoints: %w" err))
  | .ok eps =>
    match subsetsLoop rule sslOpt eps.Subsets [] 0 with
    | .error f => .error f
    | .ok (targets, foundTargets) =>
      if foundTargets = 0 then
        .error (.error (.errorf "no gateway pods available"))
      else
        .ok targets

/-- The loop over `ing.Spec.Rules`, lines 48-54, threading `result`. -/
def rulesLoop (l : gatewayPodTargetLister) (sslOpt : HTTPOption) :
    List IngressRule → List ProbeTarget → Except Failure (List ProbeTarget)
  | [], result => .ok result
  | rule :: rest, result =>
    match getRuleProbes l rule sslOpt with
    | .error f => .error f
    | .ok eps => rulesLoop l sslOpt rest (result ++ eps)

/-- The Go method `ListProbeTargets`, lines 46-56. -/
def ListProbeTargets (l : gatewayPodTargetLister) (ing : IngressSpec) :
    Except Failure (List ProbeTarget) :=
  rulesLoop l ing.HTTPOption ing.Rules []

/-! ## Fixtures used to instantiate the theorems -/

/-- A lister whose gateway services are fixed and whose endpoints lookup
answers `eps` for every service. -/
def fixtureLister (eps : Endpoints) : gatewayPodTargetLister where
  gatewayService := fun v =>
    match v with
    | .ExternalIP => { Namespace := "istio-system", Name := "istio-ingressgateway" }
    | .ClusterLocal => { Namespace := "istio-system", Name := "knative-local-gateway" }
  endpointsLister := fun _ => .ok eps

/-- A cluster-local rule for one host. -/
def fixtureRule : IngressRule :=
  { Hosts := ["foo.example.com"], Visibility := .ClusterLocal }

/-- An external rule for one host. -/
def fixtureExternalRule : IngressRule :=
  { Hosts := ["foo.example.com"], Visibility := .ExternalIP }

/-- A subset whose first and last port entries carry a qualifying
application protocol hint and whose second and third carry qualifying names. -/
def fixtureMixedSubset : EndpointSubset :=
  { Addresses := [{ IP := "10.0.0.1" }]
    Ports := [{ Name := "grpc", Port := 9000, AppProtocol := some "http" },
              { Name := "http2", Port := 8081, AppProtocol := none },
              { Name := "http", Port := 80, AppProtocol := none },
              { Name := "status", Port := 15021, AppProtocol := some "http2" }] }

/-- The subset of the second scenario: a `grpc` port before the `https` port. -/
def fixtureHttpsSubset : EndpointSubset :=
  { Addresses := [{ IP := "10.0.0.1" }, { IP := "10.0.0.2" }]
    Ports := [{ Name := "grpc", Port := 9000, AppProtocol := none },
              { Name := "https", Port := 8443, AppProtocol := none }] }

/-- The subset of the first scenario: an `http` port and an `https` port. -/
def fixtureHttpSubset : EndpointSubset :=
  { Addresses := [{ IP := "10.0.0.1" }, { IP := "10.0.0.2" }]
    Ports := [{ Name := "http", Port := 80, AppProtocol := none },
              { Name := "https", Port := 443, AppProtocol := none }] }

/-- A subset with a port but no ready address. -/
def fixtureNoAddressSubset : EndpointSubset :=
  { Addresses := []
    Ports := [{ Name := "http", Port := 80, AppProtocol := none }] }

/-- A subset that lists the address `10.0.0.1` twice. -/
def fixtureDuplicateSubset : EndpointSubset :=
  { Addresses := [{ IP := "10.0.0.1" }, { IP := "10.0.0.1" }, { IP := "10.0.0.2" }]
    Ports := [{ Name := "http", Port := 80, AppProtocol := none }] }

/-- A subset with the single address `10.0.0.1`, on another port. -/
def fixtureSingleSubset : EndpointSubset :=
  { Addresses := [{ IP := "10.0.0.1" }]
    Ports := [{ Name := "http", Port := 8080, AppProtocol := none }] }

/-- A lister whose cluster-local gateway service has the endpoints of
`fixtureHttpSubset` and whose external gateway service has no subsets. -/
def fixtureSplitLister : gatewayPodTargetLister where
  gatewayService := fun v =>
    match v with
    | .ExternalIP => { Namespace := "istio-system", Name := "istio-ingressgateway" }
    | .ClusterLocal => { Namespace := "istio-system", Name := "knative-local-gateway" }
  endpointsLister := fun service =>
    if service.Name = "knative-local-gateway" then
      .ok { Subsets := [fixtureHttpSubset] }
    else
      .ok { Subsets := [] }

/-- An external rule for two hosts. -/
def fixtureTwoHostRule : IngressRule :=
  { Hosts := ["foo.example.com", "bar.example.com"], Visibility := .ExternalIP }

/-- A subset without a qualifying port name for a cleartext rule, in which
the first and the third entry declare a qualifying application protocol. -/
def fixtureHintSubset : EndpointSubset :=
  { Addresses := [{ IP := "10.0.0.1" }]
    Ports := [{ Name := "grpc", Port := 9000, AppProtocol := some "http" },
              { Name := "metrics", Port := 9090, AppProtocol := none },
              { Name := "h2", Port := 8081, AppProtocol := some "http2" },
              { Name := "status", Port := 15021, AppProtocol := some "tcp" }] }

/-- A subset without a qualifying port name or application protocol for a
cleartext rule. -/
def fixtureFallbackSubset : EndpointSubset :=
  { Addresses := [{ IP := "10.0.0.1" }]
    Ports := [{ Name := "grpc", Port := 9000, AppProtocol := none },
              { Name := "https", Port := 443, AppProtocol := none }] }

/-- A subset with an address and an empty port list. -/
def fixtureNoPortSubset : EndpointSubset :=
  { Addresses := [{ IP := "10.0.0.3" }]
    Ports := [] }

/-- A lister whose endpoints lookup fails for every service. -/
def fixtureFailingLister : gatewayPodTargetLister where
  gatewayService := fun v =>
    match v with
    | .ExternalIP => { Namespace := "istio-system", Name := "istio-ingressgateway" }
    | .ClusterLocal => { Namespace := "istio-system", Name := "knative-local-gateway" }
  endpointsLister := fun service => .error (.lister ("endpoints not found: " ++ service.Name))

/-! ## Lemmas about the loops -/

theorem mem_matchSchemes (rule : IngressRule) (sslOpt : HTTPOption) (name : String) :
    name ∈ matchSchemes rule sslOpt ↔
      if rule.Visibility = IngressVisibility.ExternalIP ∧ sslOpt = HTTPOption.Redirected then
        name = "https"
      else
        name = "http" ∨ name = "http2" := by
  unfold matchSchemes NewString
  split <;> simp

theorem portLoop_of_find (ms : Finset String) (p : EndpointPort) :
    ∀ (ports : List EndpointPort) (portNumber : Int),
      ports.find? (fun q => decide (q.Name ∈ ms)) = some p →
      portLoop ms ports portNumber = p.Port := by
  intro ports
  induction ports with
  | nil => intro n h; simp at h
  | cons q rest ih =>
    intro n h
    rw [List.find?_cons] at h
    by_cases hq : q.Name ∈ ms
    · simp only [hq, decide_True, Option.some.injEq] at h
      subst h
      simp [portLoop, hq]
    · simp only [hq, decide_False] at h
      unfold portLoop
      rw [if_neg hq]
      split
      · exact ih _ h
      · exact ih _ h

theorem subsetProbe_ok_of_ports (rule : IngressRule) (sslOpt : HTTPOption)
    (sub : EndpointSubset) (first : EndpointPort) (rest : List EndpointPort)
    (h : sub.Ports = first :: rest) :
    subsetProbe rule sslOpt sub = .ok
      { PodIPs := addressLoop sub.Addresses (NewString [])
        PodPort := Itoa (portLoop (matchSchemes rule sslOpt) sub.Ports first.Port)
        URLs := domainsToURL rule.Hosts (scheme rule sslOpt) } := by
  unfold subsetProbe
  rw [h]

theorem subsetProbe_ok_inv (rule : IngressRule) (sslOpt : HTTPOption)
    (sub : EndpointSubset) (pt : ProbeTarget) (h : subsetProbe rule sslOpt sub = .ok pt) :
    ∃ first rest, sub.Ports = first :: rest ∧
      pt = { PodIPs := addressLoop sub.Addresses (NewString [])
             PodPort := Itoa (portLoop (matchSchemes rule sslOpt) sub.Ports first.Port)
             URLs := domainsToURL rule.Hosts (scheme rule sslOpt) } := by
  cases hp : sub.Ports with
  | nil => simp [subsetProbe, hp] at h
  | cons first rest =>
    refine ⟨first, rest, rfl, ?_⟩
    rw [subsetProbe_ok_of_ports rule sslOpt sub first rest hp, hp] at h
    exact (Except.ok.inj h).symm

theorem subsetsLoop_ok_iff (rule : IngressRule) (sslOpt : HTTPOption) :
    ∀ (subs : List EndpointSubset) (targets : List ProbeTarget) (foundTargets : Nat)
      (r : List ProbeTarget × Nat),
      subsetsLoop rule sslOpt subs targets foundTargets = .ok r ↔
        ∃ pts, List.Forall₂ (fun sub pt => subsetProbe rule sslOpt sub = .ok pt) subs pts ∧
          r = (targets ++ pts, foundTargets + (pts.map (fun pt => pt.PodIPs.card)).sum) := by
  intro subs
  induction subs with
  | nil =>
    intro ts n r
    simp [subsetsLoop, eq_comm]
  | cons sub rest ih =>
    intro ts n r
    unfold subsetsLoop
    cases hsp : subsetProbe rule sslOpt sub with
    | error f =>
      simp only [List.forall₂_cons_left_iff, hsp]
      constructor
      · intro h
        cases h
      · rintro ⟨_, ⟨pt, pts, hpt, -, -⟩, -⟩
        cases hpt
    | ok pt =>
      simp only [ih, List.forall₂_cons_left_iff, hsp]
      constructor
      · rintro ⟨pts, hall, rfl⟩
        exact ⟨pt :: pts, ⟨pt, pts, rfl, hall, rfl⟩, by simp [Nat.add_assoc]⟩
      · rintro ⟨_, ⟨pt2, pts, hpt, hall, rfl⟩, rfl⟩
        cases hpt
        exact ⟨pts, hall, by simp [Nat.add_assoc]⟩

theorem getRuleProbes_ok_iff (l : gatewayPodTargetLister) (rule : IngressRule)
    (sslOpt : HTTPOption) (targets : List ProbeTarget) :
    getRuleProbes l rule sslOpt = .ok targets ↔
      ∃ eps, l.endpointsLister (l.gatewayService rule.Visibility) = .ok eps ∧
        List.Forall₂ (fun sub pt => subsetProbe rule sslOpt sub = .ok pt) eps.Subsets targets ∧
        (targets.map (fun pt => pt.PodIPs.card)).sum ≠ 0 := by
  cases hl : l.endpointsLister (l.gatewayService rule.Visibility) with
  | error e => simp [getRuleProbes, hl]
  | ok eps =>
    simp only [getRuleProbes, hl, Except.ok.injEq, exists_eq_left']
    cases hs : subsetsLoop rule sslOpt eps.Subsets [] 0 with
    | error f =>
      constructor
      · intro h
        cases h
      · rintro ⟨hall, -⟩
        have := (subsetsLoop_ok_iff rule sslOpt eps.Subsets [] 0 _).2 ⟨targets, hall, rfl⟩
        rw [hs] at this
        cases this
    | ok r =>
      obtain ⟨pts, hall, rfl⟩ := (subsetsLoop_ok_iff rule sslOpt eps.Subsets [] 0 r).1 hs
      have huniq : ∀ ts, List.Forall₂ (fun sub pt => subsetProbe rule sslOpt sub = .ok pt)
          eps.Subsets ts → ts = pts := by
        intro ts hts
        have := (subsetsLoop_ok_iff rule sslOpt eps.Subsets [] 0 _).2 ⟨ts, hts, rfl⟩
        rw [hs] at this
        simpa using (congrArg Prod.fst (Except.ok.inj this)).symm
      simp only [List.nil_append, Nat.zero_add]
      split
      · rename_i h0
        constructor
        · intro h
          cases h
        · rintro ⟨hall2, hsum⟩
          rw [huniq _ hall2] at hsum
          exact absurd h0 hsum
      · rename_i h0
        simp only [Except.ok.injEq]
        constructor
        · rintro rfl
          exact ⟨hall, h0⟩
        · rintro ⟨hall2, -⟩
          exact (huniq _ hall2).symm

theorem forall₂_getElem? {α β : Type} (R : α → β → Prop) :
    ∀ (xs : List α) (ys : List β), List.Forall₂ R xs ys →
      ∀ (i : Nat) (x : α), xs[i]? = some x → ∃ y, ys[i]? = some y ∧ R x y := by
  intro xs ys h
  induction h with
  | nil => intro i x hx; simp at hx
  | cons hxy _ ih =>
    intro i x hx
    cases i with
    | zero =>
      simp only [List.getElem?_cons_zero, Option.some.injEq] at hx
      subst hx
      exact ⟨_, by simp, hxy⟩
    | succ j =>
      simp only [List.getElem?_cons_succ] at hx
      obtain ⟨y, hy, hr⟩ := ih j x hx
      exact ⟨y, by simpa using hy, hr⟩

theorem forall₂_mem_right {α β : Type} (R : α → β → Prop) :
    ∀ (xs : List α) (ys : List β), List.Forall₂ R xs ys →
      ∀ y ∈ ys, ∃ x ∈ xs, R x y := by
  intro xs ys h
  induction h with
  | nil => intro y hy; simp at hy
  | cons hxy _ ih =>
    intro y hy
    rcases List.mem_cons.1 hy with rfl | hy
    · exact ⟨_, List.mem_cons_self _ _, hxy⟩
    · obtain ⟨x, hx, hr⟩ := ih y hy
      exact ⟨x, List.mem_cons_of_mem _ hx, hr⟩

/-- In a successful call the returned targets are, position by position,
the targets of the loop body on the subsets of the snapshot. -/
theorem getRuleProbes_ok_pointwise (l : gatewayPodTargetLister) (rule : IngressRule)
    (sslOpt : HTTPOption) (eps : Endpoints) (targets : List ProbeTarget)
    (hget : l.endpointsLister (l.gatewayService rule.Visibility) = .ok eps)
    (hok : getRuleProbes l rule sslOpt = .ok targets) :
    List.Forall₂ (fun sub pt => subsetProbe rule sslOpt sub = .ok pt) eps.Subsets targets := by
  obtain ⟨eps2, hget2, hall, -⟩ := (getRuleProbes_ok_iff l rule sslOpt targets).1 hok
  rw [hget] at hget2
  cases hget2
  exact hall

theorem domainsToURLLoop_eq (scheme : String) :
    ∀ (domains : List String) (urls : List URL),
      domainsToURLLoop scheme domains urls =
        urls ++ domains.map (fun domain => { Scheme := scheme, Host := domain, Path := "/" }) := by
  intro domains
  induction domains with
  | nil => intro urls; simp [domainsToURLLoop]
  | cons d rest ih => intro urls; simp [domainsToURLLoop, ih]

theorem domainsToURL_eq_map (domains : List String) (scheme : String) :
    domainsToURL domains scheme =
      domains.map (fun domain => { Scheme := scheme, Host := domain, Path := "/" }) := by
  simp [domainsToURL, domainsToURLLoop_eq]

theorem subsetProbe_port_of_find (rule : IngressRule) (sslOpt : HTTPOption)
    (sub : EndpointSubset) (p : EndpointPort)
    (hfind : sub.Ports.find? (fun q => decide (q.Name ∈ matchSchemes rule sslOpt)) = some p) :
    ∃ pt, subsetProbe rule sslOpt sub = .ok pt ∧ pt.PodPort = Itoa p.Port ∧
      pt.URLs = domainsToURL rule.Hosts (scheme rule sslOpt) := by
  cases hp : sub.Ports with
  | nil => rw [hp] at hfind; simp at hfind
  | cons first rest =>
    refine ⟨_, subsetProbe_ok_of_ports rule sslOpt sub first rest hp, ?_, rfl⟩
    simp only
    rw [portLoop_of_find _ p sub.Ports first.Port hfind]

/-- The target of a subset with a name match, in the loop body and at the
subset's position in a successful call. -/
theorem target_of_name_match (rule : IngressRule) (sslOpt : HTTPOption)
    (sub : EndpointSubset) (p : EndpointPort)
    (hfind : sub.Ports.find? (fun q => decide (q.Name ∈ matchSchemes rule sslOpt)) = some p) :
    (∃ pt, subsetProbe rule sslOpt sub = .ok pt ∧ pt.PodPort = Itoa p.Port ∧
      pt.URLs = domainsToURL rule.Hosts (scheme rule sslOpt)) ∧
    ∀ (l : gatewayPodTargetLister) (eps : Endpoints) (targets : List ProbeTarget) (i : Nat),
      l.endpointsLister (l.gatewayService rule.Visibility) = .ok eps →
      getRuleProbes l rule sslOpt = .ok targets →
      eps.Subsets[i]? = some sub →
      ∃ pt, targets[i]? = some pt ∧ pt.PodPort = Itoa p.Port ∧
        pt.URLs = domainsToURL rule.Hosts (scheme rule sslOpt) := by
  obtain ⟨pt, hpt, hport, hurls⟩ := subsetProbe_port_of_find rule sslOpt sub p hfind
  refine ⟨⟨pt, hpt, hport, hurls⟩, ?_⟩
  intro l eps targets i hget hok hsub
  obtain ⟨pt2, hpt2, hr⟩ := forall₂_getElem? _ _ _
    (getRuleProbes_ok_pointwise l rule sslOpt eps targets hget hok) i sub hsub
  have hr2 : subsetProbe rule sslOpt sub = .ok pt2 := hr
  rw [hpt] at hr2
  cases hr2
  exact ⟨pt, hpt2, hport, hurls⟩

theorem mem_domainsToURL_scheme (domains : List String) (scheme : String) (u : URL)
    (hu : u ∈ domainsToURL domains scheme) : u.Scheme = scheme := by
  rw [domainsToURL_eq_map] at hu
  obtain ⟨d, -, rfl⟩ := List.mem_map.1 hu
  rfl

theorem subsetProbe_urls (rule : IngressRule) (sslOpt : HTTPOption) (sub : EndpointSubset)
    (pt : ProbeTarget) (h : subsetProbe rule sslOpt sub = .ok pt) :
    pt.URLs = domainsToURL rule.Hosts (scheme rule sslOpt) := by
  obtain ⟨first, rest, -, rfl⟩ := subsetProbe_ok_inv rule sslOpt sub pt h
  rfl

/-! ## Port selection by name -/

/-- C1: when some port entry of a subset has a name in the qualifying name
set of the rule (`https` for an external and redirected rule, `http` and
`http2` otherwise), the target of that subset carries the port number of the
first such entry in list order, whatever application protocol hints the
other entries declare; this holds for the loop body on the subset and for
the target at the subset's position in every successful `getRuleProbes`. -/
theorem getRuleProbes_name_match_first (rule : IngressRule) (sslOpt : HTTPOption)
    (sub : EndpointSubset) (p : EndpointPort)
    (hfind : sub.Ports.find? (fun q => decide
      (if rule.Visibility = IngressVisibility.ExternalIP ∧ sslOpt = HTTPOption.Redirected then
        q.Name = "https" else q.Name = "http" ∨ q.Name = "http2")) = some p) :
    (∃ pt, subsetProbe rule sslOpt sub = .ok pt ∧ pt.PodPort = Itoa p.Port) ∧
    ∀ (l : gatewayPodTargetLister) (eps : Endpoints) (targets : List ProbeTarget) (i : Nat),
      l.endpointsLister (l.gatewayService rule.Visibility) = .ok eps →
      getRuleProbes l rule sslOpt = .ok targets →
      eps.Subsets[i]? = some sub →
      ∃ pt, targets[i]? = some pt ∧ pt.PodPort = Itoa p.Port := by
  have hfind2 : sub.Ports.find? (fun q => decide (q.Name ∈ matchSchemes rule sslOpt)) = some p := by
    rw [← hfind]
    congr 1
    funext q
    simp only [mem_matchSchemes]
  obtain ⟨⟨pt, hpt, hport, -⟩, hall⟩ := target_of_name_match rule sslOpt sub p hfind2
  refine ⟨⟨pt, hpt, hport⟩, ?_⟩
  intro l eps targets i hget hok hsub
  obtain ⟨pt2, hpt2, hport2, -⟩ := hall l eps targets i hget hok hsub
  exact ⟨pt2, hpt2, hport2⟩

/-- Witness for C1: in `fixtureMixedSubset` the entry named `http2` is the
first with a qualifying name, and its port 8081 is selected although
entries before and after it carry qualifying hints. -/
theorem getRuleProbes_name_match_first_witness :
    fixtureMixedSubset.Ports.find? (fun q => decide
      (if fixtureRule.Visibility = IngressVisibility.ExternalIP ∧
          HTTPOption.Enabled = HTTPOption.Redirected then
        q.Name = "https" else q.Name = "http" ∨ q.Name = "http2"))
      = some { Name := "http2", Port := 8081, AppProtocol := none } ∧
    (∃ pt, subsetProbe fixtureRule .Enabled fixtureMixedSubset = .ok pt ∧ pt.PodPort = "8081") ∧
    getRuleProbes (fixtureLister { Subsets := [fixtureMixedSubset] }) fixtureRule .Enabled =
      .ok [{ PodIPs := {"10.0.0.1"}, PodPort := "8081",
             URLs := [{ Scheme := "http", Host := "foo.example.com", Path := "/" }] }] ∧
    ∃ pt, [({ PodIPs := {"10.0.0.1"}, PodPort := "8081",
              URLs := [{ Scheme := "http", Host := "foo.example.com", Path := "/" }] }
              : ProbeTarget)][0]? = some pt ∧ pt.PodPort = "8081" :=
  ⟨by decide,
   (getRuleProbes_name_match_first fixtureRule .Enabled fixtureMixedSubset
      { Name := "http2", Port := 8081, AppProtocol := none } (by decide)).1,
   by decide,
   (getRuleProbes_name_match_first fixtureRule .Enabled fixtureMixedSubset
      { Name := "http2", Port := 8081, AppProtocol := none } (by decide)).2
     (fixtureLister { Subsets := [fixtureMixedSubset] }) { Subsets := [fixtureMixedSubset] }
     [{ PodIPs := {"10.0.0.1"}, PodPort := "8081",
        URLs := [{ Scheme := "http", Host := "foo.example.com", Path := "/" }] }]
     0 rfl (by decide) rfl⟩

/-! ## Scheme of the probe URLs -/

/-- C2: in every successful `getRuleProbes` call every URL of every returned
target has scheme `https` when the rule is external and the HTTP option is
redirected, and scheme `http` in every other combination. -/
theorem getRuleProbes_url_scheme (l : gatewayPodTargetLister) (rule : IngressRule)
    (sslOpt : HTTPOption) (targets : List ProbeTarget)
    (hok : getRuleProbes l rule sslOpt = .ok targets) :
    ∀ pt ∈ targets, ∀ u ∈ pt.URLs,
      u.Scheme =
        if rule.Visibility = IngressVisibility.ExternalIP ∧ sslOpt = HTTPOption.Redirected then
          "https"
        else
          "http" := by
  obtain ⟨eps, -, hall, -⟩ := (getRuleProbes_ok_iff l rule sslOpt targets).1 hok
  intro pt hpt u hu
  obtain ⟨sub, -, hsub⟩ := forall₂_mem_right _ _ _ hall pt hpt
  rw [subsetProbe_urls rule sslOpt sub pt hsub] at hu
  exact mem_domainsToURL_scheme _ _ u hu

/-- Witness for C2: an external, redirected rule over `fixtureMixedSubset`
succeeds with one target whose single URL has scheme `https`. -/
theorem getRuleProbes_url_scheme_witness :
    getRuleProbes (fixtureLister { Subsets := [fixtureMixedSubset] }) fixtureExternalRule
        .Redirected =
      .ok [{ PodIPs := {"10.0.0.1"}, PodPort := "9000",
             URLs := [{ Scheme := "https", Host := "foo.example.com", Path := "/" }] }] ∧
    ({ Scheme := "https", Host := "foo.example.com", Path := "/" } : URL).Scheme =
      if fixtureExternalRule.Visibility = IngressVisibility.ExternalIP ∧
          HTTPOption.Redirected = HTTPOption.Redirected then
        "https"
      else
        "http" :=
  ⟨by decide,
   getRuleProbes_url_scheme (fixtureLister { Subsets := [fixtureMixedSubset] })
     fixtureExternalRule .Redirected
     [{ PodIPs := {"10.0.0.1"}, PodPort := "9000",
        URLs := [{ Scheme := "https", Host := "foo.example.com", Path := "/" }] }]
     (by decide)
     { PodIPs := {"10.0.0.1"}, PodPort := "9000",
       URLs := [{ Scheme := "https", Host := "foo.example.com", Path := "/" }] }
     (List.mem_singleton.2 rfl)
     { Scheme := "https", Host := "foo.example.com", Path := "/" }
     (List.mem_singleton.2 rfl)⟩

/-! ## The `https` port of external, redirected rules -/

/-- C3: for an external rule with the redirected HTTP option and a subset
with a port entry named `https`, the target of the subset carries the port
number of the first entry named `https` and URLs of scheme `https`, whatever
entries precede it; this holds for the loop body on the subset and for the
target at the subset's position in every successful `getRuleProbes`. -/
theorem getRuleProbes_https_port (rule : IngressRule) (sslOpt : HTTPOption)
    (sub : EndpointSubset) (p : EndpointPort)
    (hvis : rule.Visibility = IngressVisibility.ExternalIP)
    (hopt : sslOpt = HTTPOption.Redirected)
    (hfind : sub.Ports.find? (fun q => decide (q.Name = "https")) = some p) :
    (∃ pt, subsetProbe rule sslOpt sub = .ok pt ∧ pt.PodPort = Itoa p.Port ∧
      ∀ u ∈ pt.URLs, u.Scheme = "https") ∧
    ∀ (l : gatewayPodTargetLister) (eps : Endpoints) (targets : List ProbeTarget) (i : Nat),
      l.endpointsLister (l.gatewayService rule.Visibility) = .ok eps →
      getRuleProbes l rule sslOpt = .ok targets →
      eps.Subsets[i]? = some sub →
      ∃ pt, targets[i]? = some pt ∧ pt.PodPort = Itoa p.Port ∧
        ∀ u ∈ pt.URLs, u.Scheme = "https" := by
  have hfind2 : sub.Ports.find? (fun q => decide (q.Name ∈ matchSchemes rule sslOpt)) = some p := by
    rw [← hfind]
    congr 1
    funext q
    simp [mem_matchSchemes, hvis, hopt]
  have hscheme : scheme rule sslOpt = "https" := by simp [scheme, hvis, hopt]
  obtain ⟨⟨pt, hpt, hport, hurls⟩, hall⟩ := target_of_name_match rule sslOpt sub p hfind2
  refine ⟨⟨pt, hpt, hport, ?_⟩, ?_⟩
  · intro u hu
    rw [hurls, hscheme] at hu
    exact mem_domainsToURL_scheme _ _ u hu
  · intro l eps targets i hget hok hsub
    obtain ⟨pt2, hpt2, hport2, hurls2⟩ := hall l eps targets i hget hok hsub
    refine ⟨pt2, hpt2, hport2, ?_⟩
    intro u hu
    rw [hurls2, hscheme] at hu
    exact mem_domainsToURL_scheme _ _ u hu

/-- Witness for C3, the scenario of the specification: ports
`[{grpc,9000},{https,8443}]` under an external, redirected rule give port
`"8443"` and scheme `https`. -/
theorem getRuleProbes_https_port_witness :
    fixtureExternalRule.Visibility = IngressVisibility.ExternalIP ∧
    fixtureHttpsSubset.Ports.find? (fun q => decide (q.Name = "https"))
      = some { Name := "https", Port := 8443, AppProtocol := none } ∧
    (∃ pt, subsetProbe fixtureExternalRule .Redirected fixtureHttpsSubset = .ok pt ∧
      pt.PodPort = "8443" ∧ ∀ u ∈ pt.URLs, u.Scheme = "https") ∧
    getRuleProbes (fixtureLister { Subsets := [fixtureHttpsSubset] }) fixtureExternalRule
        .Redirected =
      .ok [{ PodIPs := {"10.0.0.1", "10.0.0.2"}, PodPort := "8443",
             URLs := [{ Scheme := "https", Host := "foo.example.com", Path := "/" }] }] :=
  ⟨rfl, by decide,
   (getRuleProbes_https_port fixtureExternalRule .Redirected fixtureHttpsSubset
      { Name := "https", Port := 8443, AppProtocol := none } rfl rfl (by decide)).1,
   by decide⟩

/-! ## The `http` port of all other rules -/

/-- C4: for a rule that is not both external and redirected and a subset
with a port entry named `http` or `http2`, the target of the subset carries
the port number of the first entry named `http` or `http2`, an entry of the
subset with one of these two names, whatever the ordering of the entries;
this holds for the loop body on the subset and for the target at the
subset's position in every successful `getRuleProbes`. -/
theorem getRuleProbes_http_port (rule : IngressRule) (sslOpt : HTTPOption)
    (sub : EndpointSubset) (p : EndpointPort)
    (hnot : ¬ (rule.Visibility = IngressVisibility.ExternalIP ∧ sslOpt = HTTPOption.Redirected))
    (hfind : sub.Ports.find? (fun q => decide (q.Name = "http" ∨ q.Name = "http2")) = some p) :
    (p ∈ sub.Ports ∧ (p.Name = "http" ∨ p.Name = "http2")) ∧
    (∃ pt, subsetProbe rule sslOpt sub = .ok pt ∧ pt.PodPort = Itoa p.Port ∧
      ∀ u ∈ pt.URLs, u.Scheme = "http") ∧
    ∀ (l : gatewayPodTargetLister) (eps : Endpoints) (targets : List ProbeTarget) (i : Nat),
      l.endpointsLister (l.gatewayService rule.Visibility) = .ok eps →
      getRuleProbes l rule sslOpt = .ok targets →
      eps.Subsets[i]? = some sub →
      ∃ pt, targets[i]? = some pt ∧ pt.PodPort = Itoa p.Port ∧
        ∀ u ∈ pt.URLs, u.Scheme = "http" := by
  have hfind2 : sub.Ports.find? (fun q => decide (q.Name ∈ matchSchemes rule sslOpt)) = some p := by
    rw [← hfind]
    congr 1
    funext q
    simp only [mem_matchSchemes, if_neg hnot]
  have hscheme : scheme rule sslOpt = "http" := by simp only [scheme, if_neg hnot]
  obtain ⟨⟨pt, hpt, hport, hurls⟩, hall⟩ := target_of_name_match rule sslOpt sub p hfind2
  refine ⟨⟨List.mem_of_find?_eq_some hfind, by simpa using List.find?_some hfind⟩,
    ⟨pt, hpt, hport, ?_⟩, ?_⟩
  · intro u hu
    rw [hurls, hscheme] at hu
    exact mem_domainsToURL_scheme _ _ u hu
  · intro l eps targets i hget hok hsub
    obtain ⟨pt2, hpt2, hport2, hurls2⟩ := hall l eps targets i hget hok hsub
    refine ⟨pt2, hpt2, hport2, ?_⟩
    intro u hu
    rw [hurls2, hscheme] at hu
    exact mem_domainsToURL_scheme _ _ u hu

/-- Witness for C4, the scenario of the specification: a cluster-local rule
for `foo.example.com` over ports `[{http,80},{https,443}]` and addresses
`10.0.0.1`, `10.0.0.2` gives exactly one target, with both addresses, port
`"80"` and the single URL `http://foo.example.com/`, under either HTTP option. -/
theorem getRuleProbes_http_port_witness :
    ¬ (fixtureRule.Visibility = IngressVisibility.ExternalIP ∧
        HTTPOption.Enabled = HTTPOption.Redirected) ∧
    fixtureHttpSubset.Ports.find? (fun q => decide (q.Name = "http" ∨ q.Name = "http2"))
      = some { Name := "http", Port := 80, AppProtocol := none } ∧
    (∃ pt, subsetProbe fixtureRule .Enabled fixtureHttpSubset = .ok pt ∧
      pt.PodPort = "80" ∧ ∀ u ∈ pt.URLs, u.Scheme = "http") ∧
    getRuleProbes (fixtureLister { Subsets := [fixtureHttpSubset] }) fixtureRule .Enabled =
      .ok [{ PodIPs := {"10.0.0.1", "10.0.0.2"}, PodPort := "80",
             URLs := [{ Scheme := "http", Host := "foo.example.com", Path := "/" }] }] ∧
    getRuleProbes (fixtureLister { Subsets := [fixtureHttpSubset] }) fixtureRule .Redirected =
      .ok [{ PodIPs := {"10.0.0.1", "10.0.0.2"}, PodPort := "80",
             URLs := [{ Scheme := "http", Host := "foo.example.com", Path := "/" }] }] :=
  ⟨by decide, by decide,
   (getRuleProbes_http_port fixtureRule .Enabled fixtureHttpSubset
      { Name := "http", Port := 80, AppProtocol := none } (by decide) (by decide)).2.1,
   by decide, by decide⟩

/-! ## No gateway pods available -/

theorem addressLoop_eq :
    ∀ (addresses : List EndpointAddress) (podIPs : Finset String),
      addressLoop addresses podIPs = podIPs ∪ (addresses.map (fun a => a.IP)).toFinset := by
  intro addresses
  induction addresses with
  | nil => intro s; simp [addressLoop]
  | cons a rest ih =>
    intro s
    simp only [addressLoop, ih, List.map_cons, List.toFinset_cons]
    ext ip
    simp only [Finset.mem_union, Finset.mem_insert]
    tauto

theorem subsetProbe_podIPs (rule : IngressRule) (sslOpt : HTTPOption) (sub : EndpointSubset)
    (pt : ProbeTarget) (h : subsetProbe rule sslOpt sub = .ok pt) :
    pt.PodIPs = (sub.Addresses.map (fun a => a.IP)).toFinset := by
  obtain ⟨first, rest, -, rfl⟩ := subsetProbe_ok_inv rule sslOpt sub pt h
  simp [addressLoop_eq, NewString]

theorem forall₂_subsetProbe_total (rule : IngressRule) (sslOpt : HTTPOption) :
    ∀ (subs : List EndpointSubset), (∀ sub ∈ subs, sub.Ports ≠ []) →
      ∃ pts, List.Forall₂ (fun sub pt => subsetProbe rule sslOpt sub = .ok pt) subs pts := by
  intro subs
  induction subs with
  | nil => intro _; exact ⟨[], List.Forall₂.nil⟩
  | cons sub rest ih =>
    intro h
    obtain ⟨pts, hpts⟩ := ih (fun s hs => h s (List.mem_cons_of_mem _ hs))
    cases hp : sub.Ports with
    | nil => exact absurd hp (h sub (List.mem_cons_self _ _))
    | cons first tail =>
      exact ⟨_ :: pts, List.Forall₂.cons (subsetProbe_ok_of_ports rule sslOpt sub first tail hp) hpts⟩

theorem forall₂_card_sum (rule : IngressRule) (sslOpt : HTTPOption) :
    ∀ (subs : List EndpointSubset) (pts : List ProbeTarget),
      List.Forall₂ (fun sub pt => subsetProbe rule sslOpt sub = .ok pt) subs pts →
      (pts.map (fun pt => pt.PodIPs.card)).sum =
        (subs.map (fun sub => (sub.Addresses.map (fun a => a.IP)).toFinset.card)).sum := by
  intro subs pts h
  induction h with
  | nil => rfl
  | cons hxy _ ih =>
    simp only [List.map_cons, List.sum_cons, ih, subsetProbe_podIPs rule sslOpt _ _ hxy]

theorem getRuleProbes_of_forall₂ (l : gatewayPodTargetLister) (rule : IngressRule)
    (sslOpt : HTTPOption) (eps : Endpoints) (pts : List ProbeTarget)
    (hget : l.endpointsLister (l.gatewayService rule.Visibility) = .ok eps)
    (hall : List.Forall₂ (fun sub pt => subsetProbe rule sslOpt sub = .ok pt) eps.Subsets pts) :
    getRuleProbes l rule sslOpt =
      if (pts.map (fun pt => pt.PodIPs.card)).sum = 0 then
        .error (.error (.errorf "no gateway pods available"))
      else
        .ok pts := by
  have hloop := (subsetsLoop_ok_iff rule sslOpt eps.Subsets [] 0 _).2 ⟨pts, hall, rfl⟩
  simp only [getRuleProbes, hget, hloop, List.nil_append, Nat.zero_add]

theorem address_count_zero_iff (subs : List EndpointSubset) :
    (subs.map (fun sub => (sub.Addresses.map (fun a => a.IP)).toFinset.card)).sum = 0 ↔
      ∀ sub ∈ subs, sub.Addresses = [] := by
  induction subs with
  | nil => simp
  | cons sub rest ih =>
    simp only [List.map_cons, List.sum_cons, Nat.add_eq_zero_iff, ih, List.mem_cons,
      forall_eq_or_imp, Finset.card_eq_zero, List.toFinset_eq_empty_iff, List.map_eq_nil_iff]

/-- C5: when the endpoints lookup succeeds and every subset has a port,
`getRuleProbes` fails with the error `no gateway pods available` exactly when
every subset has an empty address list, which is exactly when the numbers of
distinct addresses of the subsets sum to zero (a snapshot without subsets
included); in every other case it returns targets. -/
theorem getRuleProbes_no_pods_iff (l : gatewayPodTargetLister) (rule : IngressRule)
    (sslOpt : HTTPOption) (eps : Endpoints)
    (hget : l.endpointsLister (l.gatewayService rule.Visibility) = .ok eps)
    (hports : ∀ sub ∈ eps.Subsets, sub.Ports ≠ []) :
    (getRuleProbes l rule sslOpt = .error (.error (.errorf "no gateway pods available")) ↔
      ∀ sub ∈ eps.Subsets, sub.Addresses = []) ∧
    ((∀ sub ∈ eps.Subsets, sub.Addresses = []) ↔
      (eps.Subsets.map
        (fun sub => (sub.Addresses.map (fun a => a.IP)).toFinset.card)).sum = 0) ∧
    (eps.Subsets = [] →
      getRuleProbes l rule sslOpt = .error (.error (.errorf "no gateway pods available"))) ∧
    (¬ (∀ sub ∈ eps.Subsets, sub.Addresses = []) →
      ∃ targets, getRuleProbes l rule sslOpt = .ok targets) := by
  obtain ⟨pts, hall⟩ := forall₂_subsetProbe_total rule sslOpt eps.Subsets hports
  have hval := getRuleProbes_of_forall₂ l rule sslOpt eps pts hget hall
  rw [forall₂_card_sum rule sslOpt _ _ hall] at hval
  have hzero := address_count_zero_iff eps.Subsets
  have hiff : getRuleProbes l rule sslOpt =
      .error (.error (.errorf "no gateway pods available")) ↔
      ∀ sub ∈ eps.Subsets, sub.Addresses = [] := by
    constructor
    · intro herr
      by_contra hne
      rw [hval, if_neg (fun h0 => hne (hzero.1 h0))] at herr
      cases herr
    · intro hempty
      rw [hval, if_pos (hzero.2 hempty)]
  refine ⟨hiff, (address_count_zero_iff eps.Subsets).symm, ?_, ?_⟩
  · intro hnil
    apply hiff.2
    rw [hnil]
    intro sub hsub
    cases hsub
  · intro hne
    exact ⟨pts, by rw [hval, if_neg (fun h0 => hne (hzero.1 h0))]⟩

/-- Witness for C5: with one subset without addresses the call fails with
`no gateway pods available`, and with a second subset that has addresses
it succeeds. -/
theorem getRuleProbes_no_pods_iff_witness :
    (getRuleProbes (fixtureLister { Subsets := [fixtureNoAddressSubset] }) fixtureRule .Enabled =
        .error (.error (.errorf "no gateway pods available")) ↔
      ∀ sub ∈ [fixtureNoAddressSubset], sub.Addresses = []) ∧
    getRuleProbes (fixtureLister { Subsets := [fixtureNoAddressSubset] }) fixtureRule .Enabled =
      .error (.error (.errorf "no gateway pods available")) ∧
    getRuleProbes (fixtureLister { Subsets := [] }) fixtureRule .Enabled =
      .error (.error (.errorf "no gateway pods available")) ∧
    ∃ targets, getRuleProbes
      (fixtureLister { Subsets := [fixtureNoAddressSubset, fixtureHttpSubset] })
      fixtureRule .Enabled = .ok targets :=
  ⟨(getRuleProbes_no_pods_iff (fixtureLister { Subsets := [fixtureNoAddressSubset] })
      fixtureRule .Enabled { Subsets := [fixtureNoAddressSubset] } rfl (by decide)).1,
   by decide,
   (getRuleProbes_no_pods_iff (fixtureLister { Subsets := [] })
      fixtureRule .Enabled { Subsets := [] } rfl (by decide)).2.2.1 rfl,
   (getRuleProbes_no_pods_iff
      (fixtureLister { Subsets := [fixtureNoAddressSubset, fixtureHttpSubset] })
      fixtureRule .Enabled { Subsets := [fixtureNoAddressSubset, fixtureHttpSubset] } rfl
      (by decide)).2.2.2 (by decide)⟩

/-! ## Targets with an empty address set -/

/-- C6 as stated fails: over a snapshot with the subsets `fixtureHttpSubset`
and `fixtureNoAddressSubset` both `getRuleProbes` and `ListProbeTargets`
succeed, and the second returned target has an empty address set. -/
theorem getRuleProbes_empty_target_counterexample :
    getRuleProbes (fixtureLister { Subsets := [fixtureHttpSubset, fixtureNoAddressSubset] })
        fixtureRule .Enabled =
      .ok [{ PodIPs := {"10.0.0.1", "10.0.0.2"}, PodPort := "80",
             URLs := [{ Scheme := "http", Host := "foo.example.com", Path := "/" }] },
           { PodIPs := ∅, PodPort := "80",
             URLs := [{ Scheme := "http", Host := "foo.example.com", Path := "/" }] }] ∧
    ListProbeTargets (fixtureLister { Subsets := [fixtureHttpSubset, fixtureNoAddressSubset] })
        { Rules := [fixtureRule], HTTPOption := .Enabled } =
      .ok [{ PodIPs := {"10.0.0.1", "10.0.0.2"}, PodPort := "80",
             URLs := [{ Scheme := "http", Host := "foo.example.com", Path := "/" }] },
           { PodIPs := ∅, PodPort := "80",
             URLs := [{ Scheme := "http", Host := "foo.example.com", Path := "/" }] }] ∧
    ¬ (∀ pt ∈ [({ PodIPs := {"10.0.0.1", "10.0.0.2"}, PodPort := "80",
                  URLs := [{ Scheme := "http", Host := "foo.example.com", Path := "/" }] }
                  : ProbeTarget),
               { PodIPs := ∅, PodPort := "80",
                 URLs := [{ Scheme := "http", Host := "foo.example.com", Path := "/" }] }],
        pt.PodIPs ≠ ∅) := by
  refine ⟨by decide, by decide, ?_⟩
  intro h
  exact h _ (List.mem_cons_of_mem _ (List.mem_cons_self _ _)) rfl

theorem rulesLoop_ok_iff (l : gatewayPodTargetLister) (sslOpt : HTTPOption) :
    ∀ (rules : List IngressRule) (result r : List ProbeTarget),
      rulesLoop l sslOpt rules result = .ok r ↔
        ∃ tss, List.Forall₂ (fun rule ts => getRuleProbes l rule sslOpt = .ok ts) rules tss ∧
          r = result ++ tss.flatten := by
  intro rules
  induction rules with
  | nil =>
    intro acc r
    simp [rulesLoop, eq_comm]
  | cons rule rest ih =>
    intro acc r
    unfold rulesLoop
    cases hg : getRuleProbes l rule sslOpt with
    | error f =>
      simp only [List.forall₂_cons_left_iff, hg]
      constructor
      · intro h
        cases h
      · rintro ⟨_, ⟨ts, tss, hts, -, -⟩, -⟩
        cases hts
    | ok ts =>
      simp only [ih, List.forall₂_cons_left_iff, hg]
      constructor
      · rintro ⟨tss, hall, rfl⟩
        exact ⟨ts :: tss, ⟨ts, tss, rfl, hall, rfl⟩, by simp⟩
      · rintro ⟨_, ⟨ts2, tss, hts, hall, rfl⟩, rfl⟩
        cases hts
        exact ⟨tss, hall, by simp⟩

theorem rulesLoop_error_iff (l : gatewayPodTargetLister) (sslOpt : HTTPOption) (f : Failure) :
    ∀ (rules : List IngressRule) (result : List ProbeTarget),
      rulesLoop l sslOpt rules result = .error f ↔
        ∃ pre rule post, rules = pre ++ rule :: post ∧
          (∀ r ∈ pre, ∃ ts, getRuleProbes l r sslOpt = .ok ts) ∧
          getRuleProbes l rule sslOpt = .error f := by
  intro rules
  induction rules with
  | nil =>
    intro acc
    simp [rulesLoop]
  | cons rule rest ih =>
    intro acc
    unfold rulesLoop
    cases hg : getRuleProbes l rule sslOpt with
    | error f2 =>
      constructor
      · intro h
        cases h
        exact ⟨[], rule, rest, rfl, by simp, hg⟩
      · rintro ⟨pre, r, post, hsplit, hpre, hr⟩
        cases pre with
        | nil =>
          simp only [List.nil_append, List.cons.injEq] at hsplit
          obtain ⟨rfl, -⟩ := hsplit
          rw [hg] at hr
          exact hr
        | cons q pre2 =>
          simp only [List.cons_append, List.cons.injEq] at hsplit
          obtain ⟨rfl, -⟩ := hsplit
          obtain ⟨ts, hts⟩ := hpre rule (List.mem_cons_self _ _)
          rw [hg] at hts
          cases hts
    | ok ts =>
      simp only [ih]
      constructor
      · rintro ⟨pre, r, post, rfl, hpre, hr⟩
        refine ⟨rule :: pre, r, post, rfl, ?_, hr⟩
        intro q hq
        rcases List.mem_cons.1 hq with rfl | hq
        · exact ⟨ts, hg⟩
        · exact hpre q hq
      · rintro ⟨pre, r, post, hsplit, hpre, hr⟩
        cases pre with
        | nil =>
          simp only [List.nil_append, List.cons.injEq] at hsplit
          obtain ⟨rfl, -⟩ := hsplit
          rw [hg] at hr
          cases hr
        | cons q pre2 =>
          simp only [List.cons_append, List.cons.injEq] at hsplit
          obtain ⟨rfl, rfl⟩ := hsplit
          exact ⟨pre2, r, post, rfl, fun q hq => hpre q (List.mem_cons_of_mem _ hq), hr⟩

theorem sum_pos_exists_card_pos :
    ∀ (pts : List ProbeTarget), (pts.map (fun pt => pt.PodIPs.card)).sum ≠ 0 →
      ∃ pt ∈ pts, pt.PodIPs.Nonempty := by
  intro pts
  induction pts with
  | nil => intro h; simp at h
  | cons pt rest ih =>
    intro h
    by_cases hpt : pt.PodIPs.card = 0
    · simp only [List.map_cons, List.sum_cons, hpt, Nat.zero_add] at h
      obtain ⟨q, hq, hne⟩ := ih h
      exact ⟨q, List.mem_cons_of_mem _ hq, hne⟩
    · exact ⟨pt, List.mem_cons_self _ _, Finset.card_pos.1 (Nat.pos_of_ne_zero hpt)⟩

/-- C6, amended: a successful `getRuleProbes` returns at least one target
with a non-empty address set (the sizes of the address sets sum to a
positive number), and in a successful call the target at the position of a
subset of the snapshot has an empty address set exactly when that subset
lists no address; in a successful `ListProbeTargets` the targets of every
rule contain a target with a non-empty address set. -/
theorem getRuleProbes_some_target_nonempty (l : gatewayPodTargetLister) :
    (∀ (rule : IngressRule) (sslOpt : HTTPOption) (targets : List ProbeTarget),
      getRuleProbes l rule sslOpt = .ok targets →
      (∃ pt ∈ targets, pt.PodIPs.Nonempty) ∧
      0 < (targets.map (fun pt => pt.PodIPs.card)).sum ∧
      ∀ (eps : Endpoints),
        l.endpointsLister (l.gatewayService rule.Visibility) = .ok eps →
        ∀ (i : Nat) (sub : EndpointSubset) (pt : ProbeTarget),
          eps.Subsets[i]? = some sub → targets[i]? = some pt →
          (pt.PodIPs = ∅ ↔ sub.Addresses = [])) ∧
    ∀ (ing : IngressSpec) (all : List ProbeTarget),
      ListProbeTargets l ing = .ok all →
      ∃ tss, List.Forall₂ (fun r ts => getRuleProbes l r ing.HTTPOption = .ok ts) ing.Rules tss ∧
        all = tss.flatten ∧ ∀ ts ∈ tss, ∃ pt ∈ ts, pt.PodIPs.Nonempty := by
  constructor
  · intro rule sslOpt targets hok
    obtain ⟨eps2, hget2, hall, hsum⟩ := (getRuleProbes_ok_iff l rule sslOpt targets).1 hok
    refine ⟨sum_pos_exists_card_pos targets hsum, Nat.pos_of_ne_zero hsum, ?_⟩
    intro eps hget i sub pt hsub hpt
    rw [hget] at hget2
    cases hget2
    obtain ⟨pt2, hpt2, hr⟩ := forall₂_getElem? _ _ _ hall i sub hsub
    rw [hpt] at hpt2
    cases hpt2
    rw [subsetProbe_podIPs rule sslOpt sub pt hr]
    simp
  · intro ing all hall2
    obtain ⟨tss, htss, hflat⟩ := (rulesLoop_ok_iff l ing.HTTPOption ing.Rules [] all).1 hall2
    refine ⟨tss, htss, by simpa using hflat, ?_⟩
    intro ts hts
    obtain ⟨r, -, hr⟩ := forall₂_mem_right _ _ _ htss ts hts
    obtain ⟨-, -, -, hsum2⟩ := (getRuleProbes_ok_iff l r ing.HTTPOption ts).1 hr
    exact sum_pos_exists_card_pos ts hsum2

/-- Witness for C6, amended: in the successful call of the counterexample
some target has a non-empty address set, the second target, whose subset
lists no address, has an empty one, and the successful listing of the
single rule is made of one list of targets that contains a non-empty one. -/
theorem getRuleProbes_some_target_nonempty_witness :
    getRuleProbes (fixtureLister { Subsets := [fixtureHttpSubset, fixtureNoAddressSubset] })
        fixtureRule .Enabled =
      .ok [{ PodIPs := {"10.0.0.1", "10.0.0.2"}, PodPort := "80",
             URLs := [{ Scheme := "http", Host := "foo.example.com", Path := "/" }] },
           { PodIPs := ∅, PodPort := "80",
             URLs := [{ Scheme := "http", Host := "foo.example.com", Path := "/" }] }] ∧
    (∃ pt ∈ [({ PodIPs := {"10.0.0.1", "10.0.0.2"}, PodPort := "80",
                URLs := [{ Scheme := "http", Host := "foo.example.com", Path := "/" }] }
                : ProbeTarget),
             { PodIPs := ∅, PodPort := "80",
               URLs := [{ Scheme := "http", Host := "foo.example.com", Path := "/" }] }],
      pt.PodIPs.Nonempty) ∧
    ((∅ : Finset String) = ∅ ↔ fixtureNoAddressSubset.Addresses = []) ∧
    ∃ tss, List.Forall₂
        (fun r ts => getRuleProbes
          (fixtureLister { Subsets := [fixtureHttpSubset, fixtureNoAddressSubset] }) r
          HTTPOption.Enabled = .ok ts)
        [fixtureRule] tss ∧
      [({ PodIPs := {"10.0.0.1", "10.0.0.2"}, PodPort := "80",
          URLs := [{ Scheme := "http", Host := "foo.example.com", Path := "/" }] }
          : ProbeTarget),
       { PodIPs := ∅, PodPort := "80",
         URLs := [{ Scheme := "http", Host := "foo.example.com", Path := "/" }] }] =
        tss.flatten ∧
      ∀ ts ∈ tss, ∃ pt ∈ ts, pt.PodIPs.Nonempty :=
  ⟨by decide,
   ((getRuleProbes_some_target_nonempty
      (fixtureLister { Subsets := [fixtureHttpSubset, fixtureNoAddressSubset] })).1
      fixtureRule .Enabled _ (by decide)).1,
   ((getRuleProbes_some_target_nonempty
      (fixtureLister { Subsets := [fixtureHttpSubset, fixtureNoAddressSubset] })).1
      fixtureRule .Enabled
      [{ PodIPs := {"10.0.0.1", "10.0.0.2"}, PodPort := "80",
         URLs := [{ Scheme := "http", Host := "foo.example.com", Path := "/" }] },
       { PodIPs := ∅, PodPort := "80",
         URLs := [{ Scheme := "http", Host := "foo.example.com", Path := "/" }] }]
      (by decide)).2.2
      { Subsets := [fixtureHttpSubset, fixtureNoAddressSubset] } rfl 1
      fixtureNoAddressSubset
      { PodIPs := ∅, PodPort := "80",
        URLs := [{ Scheme := "http", Host := "foo.example.com", Path := "/" }] }
      rfl rfl,
   (getRuleProbes_some_target_nonempty
      (fixtureLister { Subsets := [fixtureHttpSubset, fixtureNoAddressSubset] })).2
      { Rules := [fixtureRule], HTTPOption := .Enabled } _ (by decide)⟩

/-! ## Fail-fast over the rules -/

theorem first_failing_rule (l : gatewayPodTargetLister) (sslOpt : HTTPOption) :
    ∀ (rules : List IngressRule),
      (∃ rule ∈ rules, ∃ f, getRuleProbes l rule sslOpt = .error f) →
      ∃ pre rule post f, rules = pre ++ rule :: post ∧
        (∀ r ∈ pre, ∃ ts, getRuleProbes l r sslOpt = .ok ts) ∧
        getRuleProbes l rule sslOpt = .error f := by
  intro rules
  induction rules with
  | nil => rintro ⟨rule, hmem, -⟩; cases hmem
  | cons rule rest ih =>
    rintro ⟨q, hq, f, hf⟩
    cases hg : getRuleProbes l rule sslOpt with
    | error f2 => exact ⟨[], rule, rest, f2, rfl, by simp, hg⟩
    | ok ts =>
      rcases List.mem_cons.1 hq with rfl | hq
      · rw [hg] at hf
        cases hf
      · obtain ⟨pre, r, post, f3, rfl, hpre, hr⟩ := ih ⟨q, hq, f, hf⟩
        refine ⟨rule :: pre, r, post, f3, rfl, ?_, hr⟩
        intro x hx
        rcases List.mem_cons.1 hx with rfl | hx
        · exact ⟨ts, hg⟩
        · exact hpre x hx

/-- C7: `ListProbeTargets` fails exactly when `getRuleProbes` fails for some
rule, and then with the failure of the first rule for which it fails, the
targets of the rules before it being dropped; it succeeds exactly with the
concatenation, in rule order, of the targets of the rules, which it does
whenever no rule fails, and with no targets for an empty list of rules. -/
theorem ListProbeTargets_fail_fast (l : gatewayPodTargetLister) (ing : IngressSpec) :
    (∀ f, ListProbeTargets l ing = .error f ↔
      ∃ pre rule post, ing.Rules = pre ++ rule :: post ∧
        (∀ r ∈ pre, ∃ ts, getRuleProbes l r ing.HTTPOption = .ok ts) ∧
        getRuleProbes l rule ing.HTTPOption = .error f) ∧
    ((∃ f, ListProbeTargets l ing = .error f) ↔
      ∃ rule ∈ ing.Rules, ∃ f, getRuleProbes l rule ing.HTTPOption = .error f) ∧
    (∀ targets, ListProbeTargets l ing = .ok targets ↔
      ∃ tss, List.Forall₂ (fun rule ts => getRuleProbes l rule ing.HTTPOption = .ok ts)
          ing.Rules tss ∧
        targets = tss.flatten) ∧
    ((∀ rule ∈ ing.Rules, ∃ ts, getRuleProbes l rule ing.HTTPOption = .ok ts) →
      ∃ targets, ListProbeTargets l ing = .ok targets) ∧
    (ing.Rules = [] → ListProbeTargets l ing = .ok []) := by
  have herr : ∀ f, ListProbeTargets l ing = .error f ↔
      ∃ pre rule post, ing.Rules = pre ++ rule :: post ∧
        (∀ r ∈ pre, ∃ ts, getRuleProbes l r ing.HTTPOption = .ok ts) ∧
        getRuleProbes l rule ing.HTTPOption = .error f :=
    fun f => rulesLoop_error_iff l ing.HTTPOption f ing.Rules []
  refine ⟨herr, ?_, ?_, ?_, ?_⟩
  · constructor
    · rintro ⟨f, hf⟩
      obtain ⟨pre, rule, post, hsplit, -, hr⟩ := (herr f).1 hf
      exact ⟨rule, by rw [hsplit]; simp, f, hr⟩
    · intro h
      obtain ⟨pre, rule, post, f, hsplit, hpre, hr⟩ :=
        first_failing_rule l ing.HTTPOption ing.Rules h
      exact ⟨f, (herr f).2 ⟨pre, rule, post, hsplit, hpre, hr⟩⟩
  · intro targets
    have := rulesLoop_ok_iff l ing.HTTPOption ing.Rules [] targets
    simpa [ListProbeTargets] using this
  · intro hall
    cases hres : ListProbeTargets l ing with
    | ok targets => exact ⟨targets, rfl⟩
    | error f =>
      obtain ⟨pre, rule, post, hsplit, -, hr⟩ := (herr f).1 hres
      obtain ⟨ts, hts⟩ := hall rule (by rw [hsplit]; simp)
      rw [hr] at hts
      cases hts
  · intro hnil
    simp [ListProbeTargets, hnil, rulesLoop]

/-- An instance of C7: the cluster-local rule succeeds and the external rule
finds no gateway pods, so the whole listing fails with the error of the
external rule and the target of the cluster-local rule is not returned;
with the cluster-local rule alone, or twice, the targets are returned. -/
theorem ListProbeTargets_fail_fast_example :
    ListProbeTargets fixtureSplitLister
        { Rules := [fixtureRule, fixtureExternalRule, fixtureRule], HTTPOption := .Enabled } =
      .error (.error (.errorf "no gateway pods available")) ∧
    getRuleProbes fixtureSplitLister fixtureRule .Enabled =
      .ok [{ PodIPs := {"10.0.0.1", "10.0.0.2"}, PodPort := "80",
             URLs := [{ Scheme := "http", Host := "foo.example.com", Path := "/" }] }] ∧
    ListProbeTargets fixtureSplitLister
        { Rules := [fixtureRule, fixtureRule], HTTPOption := .Enabled } =
      .ok [{ PodIPs := {"10.0.0.1", "10.0.0.2"}, PodPort := "80",
             URLs := [{ Scheme := "http", Host := "foo.example.com", Path := "/" }] },
           { PodIPs := {"10.0.0.1", "10.0.0.2"}, PodPort := "80",
             URLs := [{ Scheme := "http", Host := "foo.example.com", Path := "/" }] }] := by
  refine ⟨by decide, by decide, by decide⟩

/-! ## Address sets and the number of targets -/

/-- C8: in a successful `getRuleProbes` the target at the position of a
subset holds exactly the IPs of the address list of that subset, so that its
size is the number of distinct addresses the subset lists; addresses of the
other subsets do not enter it. -/
theorem getRuleProbes_address_set (l : gatewayPodTargetLister) (rule : IngressRule)
    (sslOpt : HTTPOption) (eps : Endpoints) (targets : List ProbeTarget)
    (hget : l.endpointsLister (l.gatewayService rule.Visibility) = .ok eps)
    (hok : getRuleProbes l rule sslOpt = .ok targets) :
    targets.length = eps.Subsets.length ∧
    ∀ (i : Nat) (sub : EndpointSubset), eps.Subsets[i]? = some sub →
      ∃ pt, targets[i]? = some pt ∧
        (∀ ip, ip ∈ pt.PodIPs ↔ ∃ a ∈ sub.Addresses, a.IP = ip) ∧
        pt.PodIPs.card = (sub.Addresses.map (fun a => a.IP)).dedup.length := by
  have hall := getRuleProbes_ok_pointwise l rule sslOpt eps targets hget hok
  refine ⟨hall.length_eq.symm, ?_⟩
  intro i sub hsub
  obtain ⟨pt, hpt, hr⟩ := forall₂_getElem? _ _ _ hall i sub hsub
  refine ⟨pt, hpt, ?_, ?_⟩
  · intro ip
    rw [subsetProbe_podIPs rule sslOpt sub pt hr]
    simp
  · rw [subsetProbe_podIPs rule sslOpt sub pt hr, List.card_toFinset]

/-- Witness for C8: the first subset lists `10.0.0.1` twice and `10.0.0.2`
once, the second lists `10.0.0.1`; the first target has the two distinct
addresses and the second the single one. -/
theorem getRuleProbes_address_set_witness :
    getRuleProbes (fixtureLister { Subsets := [fixtureDuplicateSubset, fixtureSingleSubset] })
        fixtureRule .Enabled =
      .ok [{ PodIPs := {"10.0.0.1", "10.0.0.2"}, PodPort := "80",
             URLs := [{ Scheme := "http", Host := "foo.example.com", Path := "/" }] },
           { PodIPs := {"10.0.0.1"}, PodPort := "8080",
             URLs := [{ Scheme := "http", Host := "foo.example.com", Path := "/" }] }] ∧
    ∃ pt, [({ PodIPs := {"10.0.0.1", "10.0.0.2"}, PodPort := "80",
              URLs := [{ Scheme := "http", Host := "foo.example.com", Path := "/" }] }
              : ProbeTarget),
           { PodIPs := {"10.0.0.1"}, PodPort := "8080",
             URLs := [{ Scheme := "http", Host := "foo.example.com", Path := "/" }] }][0]?
        = some pt ∧
      (∀ ip, ip ∈ pt.PodIPs ↔ ∃ a ∈ fixtureDuplicateSubset.Addresses, a.IP = ip) ∧
      pt.PodIPs.card = (fixtureDuplicateSubset.Addresses.map (fun a => a.IP)).dedup.length :=
  ⟨by decide,
   (getRuleProbes_address_set
      (fixtureLister { Subsets := [fixtureDuplicateSubset, fixtureSingleSubset] })
      fixtureRule .Enabled { Subsets := [fixtureDuplicateSubset, fixtureSingleSubset] } _
      rfl (by decide)).2 0 fixtureDuplicateSubset rfl⟩

/-- C9: a successful `getRuleProbes` returns as many targets as the snapshot
has subsets, and the target at the position of a subset is the one the loop
body builds from that subset, however many addresses the subsets list. -/
theorem getRuleProbes_one_target_per_subset (l : gatewayPodTargetLister) (rule : IngressRule)
    (sslOpt : HTTPOption) (eps : Endpoints) (targets : List ProbeTarget)
    (hget : l.endpointsLister (l.gatewayService rule.Visibility) = .ok eps)
    (hok : getRuleProbes l rule sslOpt = .ok targets) :
    targets.length = eps.Subsets.length ∧
    ∀ (i : Nat) (sub : EndpointSubset), eps.Subsets[i]? = some sub →
      ∃ pt, targets[i]? = some pt ∧ subsetProbe rule sslOpt sub = .ok pt := by
  have hall := getRuleProbes_ok_pointwise l rule sslOpt eps targets hget hok
  exact ⟨hall.length_eq.symm, fun i sub hsub => forall₂_getElem? _ _ _ hall i sub hsub⟩

/-- Witness for C9: two subsets listing three and one addresses give two
targets. -/
theorem getRuleProbes_one_target_per_subset_witness :
    getRuleProbes (fixtureLister { Subsets := [fixtureDuplicateSubset, fixtureSingleSubset] })
        fixtureRule .Enabled =
      .ok [{ PodIPs := {"10.0.0.1", "10.0.0.2"}, PodPort := "80",
             URLs := [{ Scheme := "http", Host := "foo.example.com", Path := "/" }] },
           { PodIPs := {"10.0.0.1"}, PodPort := "8080",
             URLs := [{ Scheme := "http", Host := "foo.example.com", Path := "/" }] }] ∧
    [({ PodIPs := {"10.0.0.1", "10.0.0.2"}, PodPort := "80",
        URLs := [{ Scheme := "http", Host := "foo.example.com", Path := "/" }] } : ProbeTarget),
     { PodIPs := {"10.0.0.1"}, PodPort := "8080",
       URLs := [{ Scheme := "http", Host := "foo.example.com", Path := "/" }] }].length =
      [fixtureDuplicateSubset, fixtureSingleSubset].length :=
  ⟨by decide,
   (getRuleProbes_one_target_per_subset
      (fixtureLister { Subsets := [fixtureDuplicateSubset, fixtureSingleSubset] })
      fixtureRule .Enabled { Subsets := [fixtureDuplicateSubset, fixtureSingleSubset] } _
      rfl (by decide)).1⟩

/-! ## URL construction -/

/-- C10: `domainsToURL` returns one URL per hostname, in hostname order, the
URL at the position of a hostname having the given scheme, that hostname as
host, the path `/` and every other component at its zero value; every target
of a successful `getRuleProbes` carries `domainsToURL` of the hosts of the
rule for the scheme of the rule, hence the same list of URLs, which differ
only by host. -/
theorem domainsToURL_spec :
    (∀ (domains : List String) (sch : String),
      (domainsToURL domains sch).length = domains.length ∧
      ∀ (i : Nat) (domain : String), domains[i]? = some domain →
        (domainsToURL domains sch)[i]? = some { Scheme := sch, Host := domain, Path := "/" }) ∧
    ∀ (l : gatewayPodTargetLister) (rule : IngressRule) (sslOpt : HTTPOption)
      (targets : List ProbeTarget),
      getRuleProbes l rule sslOpt = .ok targets →
      ∀ pt ∈ targets,
        pt.URLs = domainsToURL rule.Hosts (scheme rule sslOpt) ∧
        pt.URLs.length = rule.Hosts.length ∧
        ∀ (i : Nat) (host : String), rule.Hosts[i]? = some host →
          pt.URLs[i]? = some
            { Scheme :=
                if rule.Visibility = IngressVisibility.ExternalIP ∧
                    sslOpt = HTTPOption.Redirected then "https" else "http",
              Host := host, Path := "/" } := by
  have hdom : ∀ (domains : List String) (sch : String),
      (domainsToURL domains sch).length = domains.length ∧
      ∀ (i : Nat) (domain : String), domains[i]? = some domain →
        (domainsToURL domains sch)[i]? = some { Scheme := sch, Host := domain, Path := "/" } := by
    intro domains sch
    rw [domainsToURL_eq_map]
    refine ⟨List.length_map _ _, ?_⟩
    intro i domain hi
    rw [List.getElem?_map, hi]
    rfl
  refine ⟨hdom, ?_⟩
  intro l rule sslOpt targets hok pt hpt
  obtain ⟨eps, -, hall, -⟩ := (getRuleProbes_ok_iff l rule sslOpt targets).1 hok
  obtain ⟨sub, -, hsub⟩ := forall₂_mem_right _ _ _ hall pt hpt
  have hurls := subsetProbe_urls rule sslOpt sub pt hsub
  refine ⟨hurls, ?_, ?_⟩
  · rw [hurls]
    exact (hdom _ _).1
  · intro i host hi
    rw [hurls]
    exact (hdom rule.Hosts (scheme rule sslOpt)).2 i host hi

/-- An instance of C10: two hostnames under an external, redirected rule
give the two `https` URLs in hostname order on each of the two targets. -/
theorem domainsToURL_spec_example :
    domainsToURL ["foo.example.com", "bar.example.com"] "https" =
      [{ Scheme := "https", Host := "foo.example.com", Path := "/" },
       { Scheme := "https", Host := "bar.example.com", Path := "/" }] ∧
    getRuleProbes (fixtureLister { Subsets := [fixtureHttpsSubset, fixtureSingleSubset] })
        fixtureTwoHostRule .Redirected =
      .ok [{ PodIPs := {"10.0.0.1", "10.0.0.2"}, PodPort := "8443",
             URLs := [{ Scheme := "https", Host := "foo.example.com", Path := "/" },
                      { Scheme := "https", Host := "bar.example.com", Path := "/" }] },
           { PodIPs := {"10.0.0.1"}, PodPort := "8080",
             URLs := [{ Scheme := "https", Host := "foo.example.com", Path := "/" },
                      { Scheme := "https", Host := "bar.example.com", Path := "/" }] }] := by
  refine ⟨by decide, by decide⟩

/-! ## Port selection by application protocol and by position -/

theorem appProtocol_matches_iff (rule : IngressRule) (sslOpt : HTTPOption)
    (port : EndpointPort) :
    (port.AppProtocol.isSome ∧ port.AppProtocol.getD "" ∈ matchSchemes rule sslOpt) ↔
      if rule.Visibility = IngressVisibility.ExternalIP ∧ sslOpt = HTTPOption.Redirected then
        port.AppProtocol = some "https"
      else
        port.AppProtocol = some "http" ∨ port.AppProtocol = some "http2" := by
  cases hap : port.AppProtocol with
  | none => simp
  | some a =>
    simp only [Option.isSome_some, Option.getD_some, true_and, mem_matchSchemes,
      Option.some.injEq]

theorem portLoop_of_no_name (ms : Finset String) :
    ∀ (ports : List EndpointPort) (portNumber : Int),
      (∀ q ∈ ports, q.Name ∉ ms) →
      portLoop ms ports portNumber =
        match ports.reverse.find?
            (fun q => decide (q.AppProtocol.isSome ∧ q.AppProtocol.getD "" ∈ ms)) with
        | some p => p.Port
        | none => portNumber := by
  intro ports
  induction ports with
  | nil => intro n _; simp [portLoop]
  | cons q rest ih =>
    intro n hname
    have hq : q.Name ∉ ms := hname q (List.mem_cons_self _ _)
    have hrest : ∀ r ∈ rest, r.Name ∉ ms := fun r hr => hname r (List.mem_cons_of_mem _ hr)
    unfold portLoop
    rw [if_neg hq, List.reverse_cons, List.find?_append]
    by_cases hh : q.AppProtocol.isSome ∧ q.AppProtocol.getD "" ∈ ms
    · rw [if_pos hh, ih q.Port hrest]
      cases hfind : rest.reverse.find?
          (fun q => decide (q.AppProtocol.isSome ∧ q.AppProtocol.getD "" ∈ ms)) with
      | none => simp [List.find?_cons, hh]
      | some p => simp
    · rw [if_neg hh, ih n hrest]
      cases hfind : rest.reverse.find?
          (fun q => decide (q.AppProtocol.isSome ∧ q.AppProtocol.getD "" ∈ ms)) with
      | none => simp [List.find?_cons, hh]
      | some p => simp

/-- The target that the loop body builds for a subset is the target at the
position of that subset in every successful call. -/
theorem getRuleProbes_target_at (l : gatewayPodTargetLister) (rule : IngressRule)
    (sslOpt : HTTPOption) (eps : Endpoints) (targets : List ProbeTarget) (i : Nat)
    (sub : EndpointSubset) (pt : ProbeTarget)
    (hpt : subsetProbe rule sslOpt sub = .ok pt)
    (hget : l.endpointsLister (l.gatewayService rule.Visibility) = .ok eps)
    (hok : getRuleProbes l rule sslOpt = .ok targets)
    (hsub : eps.Subsets[i]? = some sub) :
    targets[i]? = some pt := by
  obtain ⟨pt2, hpt2, hr⟩ := forall₂_getElem? _ _ _
    (getRuleProbes_ok_pointwise l rule sslOpt eps targets hget hok) i sub hsub
  have hr2 : subsetProbe rule sslOpt sub = .ok pt2 := hr
  rw [hpt] at hr2
  cases hr2
  exact hpt2

/-- C11: when no port entry of a subset has a name in the qualifying name
set of the rule but some entries declare an application protocol in it, the
target of the subset carries the port number of the last such entry in list
order, a later hint match overriding an earlier one; this holds for the loop
body on the subset and for the target at the subset's position in every
successful `getRuleProbes`. -/
theorem getRuleProbes_last_hint_match (rule : IngressRule) (sslOpt : HTTPOption)
    (sub : EndpointSubset) (p : EndpointPort)
    (hname : ∀ q ∈ sub.Ports,
      ¬ (if rule.Visibility = IngressVisibility.ExternalIP ∧ sslOpt = HTTPOption.Redirected then
          q.Name = "https" else q.Name = "http" ∨ q.Name = "http2"))
    (hlast : sub.Ports.reverse.find? (fun q => decide
      (if rule.Visibility = IngressVisibility.ExternalIP ∧ sslOpt = HTTPOption.Redirected then
        q.AppProtocol = some "https"
       else q.AppProtocol = some "http" ∨ q.AppProtocol = some "http2")) = some p) :
    (∃ pt, subsetProbe rule sslOpt sub = .ok pt ∧ pt.PodPort = Itoa p.Port) ∧
    ∀ (l : gatewayPodTargetLister) (eps : Endpoints) (targets : List ProbeTarget) (i : Nat),
      l.endpointsLister (l.gatewayService rule.Visibility) = .ok eps →
      getRuleProbes l rule sslOpt = .ok targets →
      eps.Subsets[i]? = some sub →
      ∃ pt, targets[i]? = some pt ∧ pt.PodPort = Itoa p.Port := by
  have hname2 : ∀ q ∈ sub.Ports, q.Name ∉ matchSchemes rule sslOpt := by
    intro q hq hmem
    exact hname q hq ((mem_matchSchemes rule sslOpt q.Name).1 hmem)
  have hlast2 : sub.Ports.reverse.find? (fun q => decide
      (q.AppProtocol.isSome ∧ q.AppProtocol.getD "" ∈ matchSchemes rule sslOpt)) = some p := by
    rw [← hlast]
    congr 1
    funext q
    simp only [appProtocol_matches_iff]
  have hbody : ∃ pt, subsetProbe rule sslOpt sub = .ok pt ∧ pt.PodPort = Itoa p.Port := by
    cases hp : sub.Ports with
    | nil => rw [hp] at hlast; simp at hlast
    | cons first rest =>
      refine ⟨_, subsetProbe_ok_of_ports rule sslOpt sub first rest hp, ?_⟩
      simp only
      rw [portLoop_of_no_name _ sub.Ports first.Port hname2, hlast2]
  obtain ⟨pt, hpt, hport⟩ := hbody
  refine ⟨⟨pt, hpt, hport⟩, ?_⟩
  intro l eps targets i hget hok hsub
  exact ⟨pt, getRuleProbes_target_at l rule sslOpt eps targets i sub pt hpt hget hok hsub, hport⟩

/-- Witness for C11: in `fixtureHintSubset` no entry is named `http` or
`http2`, the entries of ports 9000 and 8081 declare `http` and `http2`, and
the later one, 8081, is selected. -/
theorem getRuleProbes_last_hint_match_witness :
    (∀ q ∈ fixtureHintSubset.Ports,
      ¬ (if fixtureRule.Visibility = IngressVisibility.ExternalIP ∧
            HTTPOption.Enabled = HTTPOption.Redirected then
          q.Name = "https" else q.Name = "http" ∨ q.Name = "http2")) ∧
    fixtureHintSubset.Ports.reverse.find? (fun q => decide
      (if fixtureRule.Visibility = IngressVisibility.ExternalIP ∧
          HTTPOption.Enabled = HTTPOption.Redirected then
        q.AppProtocol = some "https"
       else q.AppProtocol = some "http" ∨ q.AppProtocol = some "http2"))
      = some { Name := "h2", Port := 8081, AppProtocol := some "http2" } ∧
    (∃ pt, subsetProbe fixtureRule .Enabled fixtureHintSubset = .ok pt ∧ pt.PodPort = "8081") ∧
    getRuleProbes (fixtureLister { Subsets := [fixtureHintSubset] }) fixtureRule .Enabled =
      .ok [{ PodIPs := {"10.0.0.1"}, PodPort := "8081",
             URLs := [{ Scheme := "http", Host := "foo.example.com", Path := "/" }] }] :=
  ⟨by decide, by decide,
   (getRuleProbes_last_hint_match fixtureRule .Enabled fixtureHintSubset
      { Name := "h2", Port := 8081, AppProtocol := some "http2" } (by decide) (by decide)).1,
   by decide⟩

/-- C12: when no port entry of a subset with a non-empty port list has a
name in the qualifying name set of the rule and none declares an application
protocol in it, the target of the subset carries the port number of the
first entry of the port list; this holds for the loop body on the subset and
for the target at the subset's position in every successful `getRuleProbes`. -/
theorem getRuleProbes_fallback_first_port (rule : IngressRule) (sslOpt : HTTPOption)
    (sub : EndpointSubset) (first : EndpointPort) (rest : List EndpointPort)
    (hports : sub.Ports = first :: rest)
    (hname : ∀ q ∈ sub.Ports,
      ¬ (if rule.Visibility = IngressVisibility.ExternalIP ∧ sslOpt = HTTPOption.Redirected then
          q.Name = "https" else q.Name = "http" ∨ q.Name = "http2"))
    (hhint : ∀ q ∈ sub.Ports,
      ¬ (if rule.Visibility = IngressVisibility.ExternalIP ∧ sslOpt = HTTPOption.Redirected then
          q.AppProtocol = some "https"
         else q.AppProtocol = some "http" ∨ q.AppProtocol = some "http2")) :
    (∃ pt, subsetProbe rule sslOpt sub = .ok pt ∧ pt.PodPort = Itoa first.Port) ∧
    ∀ (l : gatewayPodTargetLister) (eps : Endpoints) (targets : List ProbeTarget) (i : Nat),
      l.endpointsLister (l.gatewayService rule.Visibility) = .ok eps →
      getRuleProbes l rule sslOpt = .ok targets →
      eps.Subsets[i]? = some sub →
      ∃ pt, targets[i]? = some pt ∧ pt.PodPort = Itoa first.Port := by
  have hname2 : ∀ q ∈ sub.Ports, q.Name ∉ matchSchemes rule sslOpt := by
    intro q hq hmem
    exact hname q hq ((mem_matchSchemes rule sslOpt q.Name).1 hmem)
  have hnone : sub.Ports.reverse.find? (fun q => decide
      (q.AppProtocol.isSome ∧ q.AppProtocol.getD "" ∈ matchSchemes rule sslOpt)) = none := by
    rw [List.find?_eq_none]
    intro q hq
    have hq2 : q ∈ sub.Ports := List.mem_reverse.1 hq
    simp only [decide_eq_true_eq]
    intro hm
    exact hhint q hq2 ((appProtocol_matches_iff rule sslOpt q).1 hm)
  have hbody : ∃ pt, subsetProbe rule sslOpt sub = .ok pt ∧ pt.PodPort = Itoa first.Port := by
    refine ⟨_, subsetProbe_ok_of_ports rule sslOpt sub first rest hports, ?_⟩
    simp only
    rw [portLoop_of_no_name _ sub.Ports first.Port hname2, hnone]
  obtain ⟨pt, hpt, hport⟩ := hbody
  refine ⟨⟨pt, hpt, hport⟩, ?_⟩
  intro l eps targets i hget hok hsub
  exact ⟨pt, getRuleProbes_target_at l rule sslOpt eps targets i sub pt hpt hget hok hsub, hport⟩

/-- Witness for C12, the example of the claim: a cluster-local rule over
ports `[{grpc,9000},{https,443}]` without hints selects 9000, not 443. -/
theorem getRuleProbes_fallback_first_port_witness :
    (∀ q ∈ fixtureFallbackSubset.Ports,
      ¬ (if fixtureRule.Visibility = IngressVisibility.ExternalIP ∧
            HTTPOption.Enabled = HTTPOption.Redirected then
          q.Name = "https" else q.Name = "http" ∨ q.Name = "http2")) ∧
    (∀ q ∈ fixtureFallbackSubset.Ports,
      ¬ (if fixtureRule.Visibility = IngressVisibility.ExternalIP ∧
            HTTPOption.Enabled = HTTPOption.Redirected then
          q.AppProtocol = some "https"
         else q.AppProtocol = some "http" ∨ q.AppProtocol = some "http2")) ∧
    (∃ pt, subsetProbe fixtureRule .Enabled fixtureFallbackSubset = .ok pt ∧
      pt.PodPort = "9000") ∧
    getRuleProbes (fixtureLister { Subsets := [fixtureFallbackSubset] }) fixtureRule .Enabled =
      .ok [{ PodIPs := {"10.0.0.1"}, PodPort := "9000",
             URLs := [{ Scheme := "http", Host := "foo.example.com", Path := "/" }] }] :=
  ⟨by decide, by decide,
   (getRuleProbes_fallback_first_port fixtureRule .Enabled fixtureFallbackSubset
      { Name := "grpc", Port := 9000, AppProtocol := none }
      [{ Name := "https", Port := 443, AppProtocol := none }] rfl (by decide) (by decide)).1,
   by decide⟩

/-! ## The port string -/

theorem digitValue_digitChar (d : Nat) (hd : d < 10) :
    digitValue (Nat.digitChar d) = some d := by
  interval_cases d <;> decide

theorem parseDigits_toDigitsCore :
    ∀ (fuel n : Nat) (ds : List Char), n < fuel →
      parseDigits (Nat.toDigitsCore 10 fuel n ds) 0 = parseDigits ds n := by
  intro fuel
  induction fuel with
  | zero => intro n ds h; omega
  | succ fuel ih =>
    intro n ds h
    unfold Nat.toDigitsCore
    simp only
    split
    · rename_i h0
      have hdv := digitValue_digitChar (n % 10) (Nat.mod_lt _ (by decide))
      have hn : n % 10 = n := by omega
      rw [hn] at hdv
      simp only [parseDigits, hn, hdv, Nat.zero_mul, Nat.zero_add]
    · rename_i h0
      rw [ih (n / 10) _ (by omega)]
      have hn : n / 10 * 10 + n % 10 = n := by omega
      simp only [parseDigits, digitValue_digitChar (n % 10) (Nat.mod_lt _ (by decide)), hn]

theorem toDigitsCore_ne_nil :
    ∀ (fuel n : Nat) (ds : List Char), ds ≠ [] → Nat.toDigitsCore 10 fuel n ds ≠ [] := by
  intro fuel
  induction fuel with
  | zero => intro n ds h; simpa [Nat.toDigitsCore] using h
  | succ fuel ih =>
    intro n ds _
    unfold Nat.toDigitsCore
    simp only
    split
    · simp
    · exact ih _ _ (by simp)

theorem toDigits_ne_nil (n : Nat) : Nat.toDigits 10 n ≠ [] := by
  unfold Nat.toDigits Nat.toDigitsCore
  simp only
  split
  · simp
  · exact toDigitsCore_ne_nil _ _ _ (by simp)

theorem parseDigits_toDigits (n : Nat) : parseDigits (Nat.toDigits 10 n) 0 = some n := by
  unfold Nat.toDigits
  rw [parseDigits_toDigitsCore (n + 1) n [] (Nat.lt_succ_self n)]
  rfl

theorem Atoi_repr (n : Nat) (hn : n < 2 ^ (intSize - 1)) :
    Atoi (Nat.repr n) = some (n : Int) := by
  have hparse := parseDigits_toDigits n
  have hne := toDigits_ne_nil n
  have hdata : (Nat.repr n).data = Nat.toDigits 10 n := rfl
  unfold Atoi
  rw [hdata]
  cases hds : Nat.toDigits 10 n with
  | nil => exact absurd hds hne
  | cons c cs =>
    rw [hds] at hparse
    have hminus : c ≠ '-' := by
      rintro rfl
      simp [parseDigits, digitValue] at hparse
    have hplus : c ≠ '+' := by
      rintro rfl
      simp [parseDigits, digitValue] at hparse
    simp only [if_neg hminus, if_neg hplus, hparse, if_pos hn]

theorem Atoi_minus_repr (n : Nat) (hn : n ≤ 2 ^ (intSize - 1)) :
    Atoi ("-" ++ Nat.repr n) = some (-(n : Int)) := by
  have hparse := parseDigits_toDigits n
  have hne := toDigits_ne_nil n
  have hdata : ("-" ++ Nat.repr n).data = '-' :: Nat.toDigits 10 n := rfl
  unfold Atoi
  rw [hdata]
  simp only [if_true, if_neg hne, hparse, if_pos hn]

/-- Parsing the rendering of an `int` value gives the value back. -/
theorem Atoi_Itoa (i : Int) (hlo : -(2 : Int) ^ (intSize - 1) ≤ i)
    (hhi : i < (2 : Int) ^ (intSize - 1)) : Atoi (Itoa i) = some i := by
  have h2 : (2 : Int) ^ (intSize - 1) = 9223372036854775808 := by norm_num [intSize]
  have h2n : (2 : Nat) ^ (intSize - 1) = 9223372036854775808 := by norm_num [intSize]
  rw [h2] at hlo hhi
  unfold Itoa
  split
  · rename_i hneg
    have hbound : i.natAbs ≤ 2 ^ (intSize - 1) := by
      rw [h2n]
      omega
    rw [Atoi_minus_repr i.natAbs hbound]
    congr 1
    omega
  · rename_i hnn
    have hbound : i.natAbs < 2 ^ (intSize - 1) := by
      rw [h2n]
      omega
    rw [Atoi_repr i.natAbs hbound]
    congr 1
    omega

theorem portLoop_mem (ms : Finset String) :
    ∀ (ports : List EndpointPort) (portNumber : Int),
      portLoop ms ports portNumber = portNumber ∨
        ∃ p ∈ ports, portLoop ms ports portNumber = p.Port := by
  intro ports
  induction ports with
  | nil => intro n; exact Or.inl rfl
  | cons q rest ih =>
    intro n
    unfold portLoop
    split
    · exact Or.inr ⟨q, List.mem_cons_self _ _, rfl⟩
    · split
      · rcases ih q.Port with h | ⟨p, hp, h⟩
        · exact Or.inr ⟨q, List.mem_cons_self _ _, h⟩
        · exact Or.inr ⟨p, List.mem_cons_of_mem _ hp, h⟩
      · rcases ih n with h | ⟨p, hp, h⟩
        · exact Or.inl h
        · exact Or.inr ⟨p, List.mem_cons_of_mem _ hp, h⟩

/-- C14: for a subset with a non-empty port list the port string of its
target is the base 10 rendering of the port number of an entry of that port
list, and parsing the string as a decimal integer gives that port number
back, port numbers being `int32` values; this holds for the loop body on the
subset and for the target at the subset's position in every successful
`getRuleProbes`. -/
theorem getRuleProbes_port_string (rule : IngressRule) (sslOpt : HTTPOption)
    (sub : EndpointSubset) (hports : sub.Ports ≠ []) :
    (∃ pt, subsetProbe rule sslOpt sub = .ok pt ∧
      ∃ p ∈ sub.Ports, pt.PodPort = Itoa p.Port ∧
        (-(2 : Int) ^ 31 ≤ p.Port ∧ p.Port < (2 : Int) ^ 31 →
          Atoi pt.PodPort = some p.Port)) ∧
    ∀ (l : gatewayPodTargetLister) (eps : Endpoints) (targets : List ProbeTarget) (i : Nat),
      l.endpointsLister (l.gatewayService rule.Visibility) = .ok eps →
      getRuleProbes l rule sslOpt = .ok targets →
      eps.Subsets[i]? = some sub →
      ∃ pt, targets[i]? = some pt ∧
        ∃ p ∈ sub.Ports, pt.PodPort = Itoa p.Port ∧
          (-(2 : Int) ^ 31 ≤ p.Port ∧ p.Port < (2 : Int) ^ 31 →
            Atoi pt.PodPort = some p.Port) := by
  have hbody : ∃ pt, subsetProbe rule sslOpt sub = .ok pt ∧
      ∃ p ∈ sub.Ports, pt.PodPort = Itoa p.Port ∧
        (-(2 : Int) ^ 31 ≤ p.Port ∧ p.Port < (2 : Int) ^ 31 →
          Atoi pt.PodPort = some p.Port) := by
    cases hp : sub.Ports with
    | nil => exact absurd hp hports
    | cons first rest =>
      refine ⟨_, subsetProbe_ok_of_ports rule sslOpt sub first rest hp, ?_⟩
      simp only
      have hsel : ∃ p ∈ sub.Ports,
          portLoop (matchSchemes rule sslOpt) sub.Ports first.Port = p.Port := by
        rcases portLoop_mem (matchSchemes rule sslOpt) sub.Ports first.Port with h | h
        · exact ⟨first, by rw [hp]; exact List.mem_cons_self _ _, h⟩
        · exact h
      obtain ⟨p, hpmem, hpeq⟩ := hsel
      refine ⟨p, by rw [← hp]; exact hpmem, by rw [hpeq], ?_⟩
      rintro ⟨hlo, hhi⟩
      rw [hpeq]
      have h2 : (2 : Int) ^ (intSize - 1) = 9223372036854775808 := by norm_num [intSize]
      apply Atoi_Itoa
      · rw [h2]
        omega
      · rw [h2]
        omega
  obtain ⟨pt, hpt, hrest⟩ := hbody
  refine ⟨⟨pt, hpt, hrest⟩, ?_⟩
  intro l eps targets i hget hok hsub
  exact ⟨pt, getRuleProbes_target_at l rule sslOpt eps targets i sub pt hpt hget hok hsub, hrest⟩

/-- Witness for C14: the target of `fixtureHintSubset` has the port string
`"8081"`, the rendering of the port of its third entry, which parses back to
8081. -/
theorem getRuleProbes_port_string_witness :
    fixtureHintSubset.Ports ≠ [] ∧
    (∃ pt, subsetProbe fixtureRule .Enabled fixtureHintSubset = .ok pt ∧
      ∃ p ∈ fixtureHintSubset.Ports, pt.PodPort = Itoa p.Port ∧
        (-(2 : Int) ^ 31 ≤ p.Port ∧ p.Port < (2 : Int) ^ 31 →
          Atoi pt.PodPort = some p.Port)) ∧
    (subsetProbe fixtureRule .Enabled fixtureHintSubset).map (fun pt => pt.PodPort) =
      .ok "8081" ∧
    Itoa 8081 = "8081" ∧
    Atoi "8081" = some 8081 ∧
    (-(2 : Int) ^ 31 ≤ 8081 ∧ (8081 : Int) < (2 : Int) ^ 31) :=
  ⟨by decide,
   (getRuleProbes_port_string fixtureRule .Enabled fixtureHintSubset (by decide)).1,
   by decide, by decide, by decide, by decide⟩

/-! ## Failure of the endpoints lookup -/

/-- C13: when the endpoints lookup of the rule's gateway service returns an
error, `getRuleProbes` returns no targets and the error `failed to get
endpoints` wrapping the lookup error, whatever the hosts of the rule; and
`ListProbeTargets` fails with that same error when `getRuleProbes` succeeds
for the rules before this one, and fails in any case. -/
theorem getRuleProbes_lookup_error (l : gatewayPodTargetLister) (rule : IngressRule)
    (sslOpt : HTTPOption) (err : GoError)
    (hget : l.endpointsLister (l.gatewayService rule.Visibility) = .error err) :
    getRuleProbes l rule sslOpt =
      .error (.error (.errorfW "failed to get endpoints: %w" err)) ∧
    (GoError.errorfW "failed to get endpoints: %w" err).Unwrap = some err ∧
    (∀ targets, getRuleProbes l rule sslOpt ≠ .ok targets) ∧
    (∀ hosts : List String,
      getRuleProbes l { Hosts := hosts, Visibility := rule.Visibility } sslOpt =
        .error (.error (.errorfW "failed to get endpoints: %w" err))) ∧
    (∀ (ing : IngressSpec) (pre post : List IngressRule),
      ing.HTTPOption = sslOpt →
      ing.Rules = pre ++ rule :: post →
      (∀ r ∈ pre, ∃ ts, getRuleProbes l r sslOpt = .ok ts) →
      ListProbeTargets l ing =
        .error (.error (.errorfW "failed to get endpoints: %w" err))) ∧
    ∀ (ing : IngressSpec), ing.HTTPOption = sslOpt → rule ∈ ing.Rules →
      ∃ f, ListProbeTargets l ing = .error f := by
  have hval : getRuleProbes l rule sslOpt =
      .error (.error (.errorfW "failed to get endpoints: %w" err)) := by
    simp only [getRuleProbes, hget]
  refine ⟨hval, rfl, ?_, ?_, ?_, ?_⟩
  · intro targets h
    rw [hval] at h
    cases h
  · intro hosts
    simp only [getRuleProbes, hget]
  · intro ing pre post hopt hrules hpre
    unfold ListProbeTargets
    rw [hopt]
    exact (rulesLoop_error_iff l sslOpt _ ing.Rules []).2 ⟨pre, rule, post, hrules, hpre, hval⟩
  · intro ing hopt hmem
    obtain ⟨pre, r, post, f, hsplit, hpre, hr⟩ :=
      first_failing_rule l sslOpt ing.Rules ⟨rule, hmem, _, hval⟩
    refine ⟨f, ?_⟩
    unfold ListProbeTargets
    rw [hopt]
    exact (rulesLoop_error_iff l sslOpt f ing.Rules []).2 ⟨pre, r, post, hsplit, hpre, hr⟩

/-- Witness for C13: with a lister whose lookup fails, the cluster-local
rule fails with the wrapped lookup error, and so does the listing of an
ingress whose first rule it is. -/
theorem getRuleProbes_lookup_error_witness :
    fixtureFailingLister.endpointsLister
        (fixtureFailingLister.gatewayService fixtureRule.Visibility) =
      .error (.lister "endpoints not found: knative-local-gateway") ∧
    getRuleProbes fixtureFailingLister fixtureRule .Enabled =
      .error (.error (.errorfW "failed to get endpoints: %w"
        (.lister "endpoints not found: knative-local-gateway"))) ∧
    ListProbeTargets fixtureFailingLister
        { Rules := [fixtureRule, fixtureExternalRule], HTTPOption := .Enabled } =
      .error (.error (.errorfW "failed to get endpoints: %w"
        (.lister "endpoints not found: knative-local-gateway"))) :=
  ⟨by decide,
   (getRuleProbes_lookup_error fixtureFailingLister fixtureRule .Enabled
      (.lister "endpoints not found: knative-local-gateway") (by decide)).1,
   (getRuleProbes_lookup_error fixtureFailingLister fixtureRule .Enabled
      (.lister "endpoints not found: knative-local-gateway") (by decide)).2.2.2.2.1
      { Rules := [fixtureRule, fixtureExternalRule], HTTPOption := .Enabled }
      [] [fixtureExternalRule] rfl rfl (by intro r hr; cases hr)⟩

/-! ## The read of the first port entry -/

theorem subsetsLoop_panic (rule : IngressRule) (sslOpt : HTTPOption) :
    ∀ (subs : List EndpointSubset) (targets : List ProbeTarget) (foundTargets : Nat),
      (∃ sub ∈ subs, sub.Ports = []) →
      subsetsLoop rule sslOpt subs targets foundTargets =
        .error (.panic (.indexOutOfRange 0 0)) := by
  intro subs
  induction subs with
  | nil => rintro ts n ⟨sub, hmem, -⟩; cases hmem
  | cons sub rest ih =>
    rintro ts n ⟨s, hmem, hs⟩
    unfold subsetsLoop
    cases hp : sub.Ports with
    | nil => simp [subsetProbe, hp]
    | cons first tail =>
      rw [subsetProbe_ok_of_ports rule sslOpt sub first tail hp]
      simp only
      apply ih
      rcases List.mem_cons.1 hmem with rfl | hmem
      · rw [hp] at hs
        cases hs
      · exact ⟨s, hmem, hs⟩

/-- C15: given the endpoints of the gateway service, when every subset has
a non-empty port list the read of the first port entry is in range and
`getRuleProbes` returns targets or the error `no gateway pods available`;
when some subset has an empty port list the read is out of range and the
call ends in that panic, returning neither targets nor an error, whatever
addresses the subsets list. -/
theorem getRuleProbes_first_port_read (l : gatewayPodTargetLister) (rule : IngressRule)
    (sslOpt : HTTPOption) (eps : Endpoints)
    (hget : l.endpointsLister (l.gatewayService rule.Visibility) = .ok eps) :
    ((∀ sub ∈ eps.Subsets, sub.Ports ≠ []) →
      ((∃ targets, getRuleProbes l rule sslOpt = .ok targets) ∨
        getRuleProbes l rule sslOpt = .error (.error (.errorf "no gateway pods available"))) ∧
      ∀ p, getRuleProbes l rule sslOpt ≠ .error (.panic p)) ∧
    ((∃ sub ∈ eps.Subsets, sub.Ports = []) →
      getRuleProbes l rule sslOpt = .error (.panic (.indexOutOfRange 0 0)) ∧
      (∀ targets, getRuleProbes l rule sslOpt ≠ .ok targets) ∧
      ∀ err, getRuleProbes l rule sslOpt ≠ .error (.error err)) := by
  constructor
  · intro hports
    obtain ⟨pts, hall⟩ := forall₂_subsetProbe_total rule sslOpt eps.Subsets hports
    have hval := getRuleProbes_of_forall₂ l rule sslOpt eps pts hget hall
    by_cases h0 : (pts.map (fun pt => pt.PodIPs.card)).sum = 0
    · rw [if_pos h0] at hval
      refine ⟨Or.inr hval, ?_⟩
      intro p h
      rw [hval] at h
      cases h
    · rw [if_neg h0] at hval
      refine ⟨Or.inl ⟨pts, hval⟩, ?_⟩
      intro p h
      rw [hval] at h
      cases h
  · intro hempty
    have hloop := subsetsLoop_panic rule sslOpt eps.Subsets [] 0 hempty
    have hval : getRuleProbes l rule sslOpt = .error (.panic (.indexOutOfRange 0 0)) := by
      simp only [getRuleProbes, hget, hloop]
    refine ⟨hval, ?_, ?_⟩
    · intro targets h
      rw [hval] at h
      cases h
    · intro err h
      rw [hval] at h
      cases h

/-- Witness for C15: over `fixtureHttpSubset` alone the call returns a
target; with `fixtureNoPortSubset`, which lists an address but no port,
added after it the call ends in the panic of the out-of-range read. -/
theorem getRuleProbes_first_port_read_witness :
    ((∃ targets, getRuleProbes (fixtureLister { Subsets := [fixtureHttpSubset] })
        fixtureRule .Enabled = .ok targets) ∨
      getRuleProbes (fixtureLister { Subsets := [fixtureHttpSubset] }) fixtureRule .Enabled =
        .error (.error (.errorf "no gateway pods available"))) ∧
    getRuleProbes (fixtureLister { Subsets := [fixtureHttpSubset] }) fixtureRule .Enabled =
      .ok [{ PodIPs := {"10.0.0.1", "10.0.0.2"}, PodPort := "80",
             URLs := [{ Scheme := "http", Host := "foo.example.com", Path := "/" }] }] ∧
    (∃ sub ∈ [fixtureHttpSubset, fixtureNoPortSubset], sub.Ports = []) ∧
    getRuleProbes (fixtureLister { Subsets := [fixtureHttpSubset, fixtureNoPortSubset] })
        fixtureRule .Enabled =
      .error (.panic (.indexOutOfRange 0 0)) :=
  ⟨((getRuleProbes_first_port_read (fixtureLister { Subsets := [fixtureHttpSubset] })
      fixtureRule .Enabled { Subsets := [fixtureHttpSubset] } rfl).1 (by decide)).1,
   by decide,
   by decide,
   ((getRuleProbes_first_port_read
      (fixtureLister { Subsets := [fixtureHttpSubset, fixtureNoPortSubset] })
      fixtureRule .Enabled { Subsets := [fixtureHttpSubset, fixtureNoPortSubset] } rfl).2
      (by decide)).1⟩

end Lister
